import Mathlib

/-!
Verification of the force-directed graph scene of `repulsive-rects-ts`
(`ForceGraph.ts`, final variant).

The TypeScript scene is shallowly embedded in three layers:

* the graph/interaction state and the pointer handlers (`onPointerDown`,
  `onPointerUp`, `onPointerMove`) over exact rationals — these paths perform no
  square roots, so `ℚ` models the JavaScript doubles exactly on every input the
  theorems use;
* the per-tick force simulation (`draw`) over `ℝ`, parameterised by the square
  root function, the usual exact-real idealisation of the double arithmetic;
* a small model `JSNum` of IEEE-754 special values (NaN, ±Infinity) over exact
  rationals, used for the claims about division by zero when two box centres
  coincide.  On the concrete inputs evaluated below every operation is exact in
  double precision, so the rational model is faithful there.

The `Canvas` library (`contains`, canvas rect) is not part of the provided
sources; the few facts taken from it are modelled from the spec and marked as
such.  Everything else is translated line by line from `ForceGraph.ts`.
-/

namespace RepulsiveRects

/-- The four tool modes of the scene (`activeTool`). -/
inductive Tool where
  | hand
  | link
  | add
  | remove
deriving DecidableEq, Repr

/-- A `Box` (graph node): its `rect` flattened to `x y w h`, its label `text`
(modelled as the character code, a natural number), and the two flags.
Polymorphic in the number type so the same structure serves the rational
interaction model, the real simulation model and the `JSNum` float model. -/
structure Box (α : Type) where
  x : α
  y : α
  w : α
  h : α
  text : Nat := 0
  pinned : Bool := false
  hovered : Bool := false
deriving DecidableEq, Repr

/-- A link, stored as a pair of indices into the box collection
(the source stores two-element arrays `[a, b]`). -/
abbrev Link := Nat × Nat

/-- `link.includes(i)` on a two-element link array. -/
def linkIncludes (l : Link) (i : Nat) : Bool :=
  l.1 == i || l.2 == i

/-- Modelled from the spec: the `Canvas` library's `contains(rect, p)` hit-test
is not among the provided sources; the spec describes pointer hit-testing of
axis-aligned rectangles.  We model inclusive point-in-rectangle containment.
Every theorem below uses points strictly inside or strictly outside the
rectangles involved, so the boundary convention affects no result. -/
def rectContains (b : Box ℚ) (px py : ℚ) : Bool :=
  decide (b.x ≤ px) && decide (px ≤ b.x + b.w) &&
    decide (b.y ≤ py) && decide (py ≤ b.y + b.h)

/-- The whole interaction state of the scene that the pointer handlers read or
write.  `dragging`, `linkAction` and `hoveredIdx` store box indices where the
source stores object references; no handler modelled here moves a box to a
different index while such a reference is live, so indices are faithful.
`width`/`height` are the canvas size (fixed; resizing is out of scope). -/
structure GState where
  width : ℚ
  height : ℚ
  boxes : List (Box ℚ)
  links : List Link
  phantomBox : Option (Box ℚ)
  activeTool : Tool
  dragging : Option Nat
  draggingStartX : ℚ
  draggingStartY : ℚ
  linkAction : Option (Nat × Bool)
  hoveredIdx : Option Nat
  pressed : List Bool
  buttonHover : List Bool
deriving DecidableEq, Repr

/-- The five toolbar button rectangles `(x, y, w, h)` (40×40, stacked). -/
def buttonRects : List (ℚ × ℚ × ℚ × ℚ) :=
  [(0, 0, 40, 40), (0, 40, 40, 40), (0, 80, 40, 40), (0, 120, 40, 40), (0, 160, 40, 40)]

/-- Modelled from the spec (same `contains` hit-test as `rectContains`, applied
to a button rectangle). -/
def buttonContains (i : Nat) (px py : ℚ) : Bool :=
  match buttonRects.get? i with
  | some (rx, ry, rw, rh) =>
      decide (rx ≤ px) && decide (px ≤ rx + rw) && decide (ry ≤ py) && decide (py ≤ ry + rh)
  | none => false

/-- Which tool the button at index `i` selects (buttons 0–3; button 4 is shuffle). -/
def toolOfButton : Nat → Option Tool
  | 0 => some .hand
  | 1 => some .link
  | 2 => some .add
  | 3 => some .remove
  | _ => none

/-- The shuffle button's action: every unpinned box gets a fresh random
position `x = ⌊r·(width − w·2)⌋ + w/2`, `y = ⌊r·(height − h·2)⌋ + h/2`.  The
random draws are supplied as `rand`, indexed by the box's position in the
collection. -/
def shuffleBoxes (rand : Nat → ℚ × ℚ) (W H : ℚ) (boxes : List (Box ℚ)) : List (Box ℚ) :=
  (List.range boxes.length).zipWith (fun i b =>
    if b.pinned then b
    else { b with
            x := ((⌊(rand i).1 * (W - b.w * 2)⌋ : ℤ) : ℚ) + b.w / 2,
            y := ((⌊(rand i).2 * (H - b.h * 2)⌋ : ℤ) : ℚ) + b.h / 2 }) boxes

/-- `onclick` of the button at index `i`: buttons 0–3 set the tool and refresh
all five `pressed` flags; button 4 shuffles the unpinned boxes. -/
def buttonClick (rand : Nat → ℚ × ℚ) (i : Nat) (s : GState) : GState :=
  match toolOfButton i with
  | some t => { s with activeTool := t, pressed := (List.range 5).map (fun j => j == i) }
  | none =>
      if i == 4 then { s with boxes := shuffleBoxes rand s.width s.height s.boxes } else s

/-- Set the `hovered` flag of the box at index `i` (a no-op on an absent index,
which the source never produces here). -/
def setHoveredAt (i : Nat) (v : Bool) (boxes : List (Box ℚ)) : List (Box ℚ) :=
  match boxes.get? i with
  | some b => boxes.set i ({ b with hovered := v })
  | none => boxes

/-- Inner loop of the link-gesture resolution (`onPointerUp`, link branch):
`for (let link of this.links)` iterates over the snapshot of `this.links` taken
when the loop began (the first argument), while the filtered reassignments of
`this.links` accumulate in the second argument.  `foundDuplicate` is
*reassigned*, not accumulated, on every iteration — exactly as in the source.
The source removes by object identity (`a !== link`); since each matching
snapshot entry triggers one removal pass, removing by value after each match
yields the same final list. -/
def linkDupLoop (firstIdx secondIdx : Nat) (isAdd : Bool) :
    List Link → List Link → Bool → List Link × Bool
  | [], current, found => (current, found)
  | l :: rest, current, _ =>
      let found := linkIncludes l firstIdx && linkIncludes l secondIdx
      let current := if found && !isAdd then current.filter (fun a => a ≠ l) else current
      linkDupLoop firstIdx secondIdx isAdd rest current found

/-- Resolution of the link gesture against one hit target box: run the
duplicate scan, then `if (!foundDuplicate && this.linkAction.add)
this.links.push([firstIdx, secondIdx])`. -/
def resolveLinkTarget (startIdx targetIdx : Nat) (isAdd : Bool) (links : List Link) :
    List Link :=
  let r := linkDupLoop startIdx targetIdx isAdd links links false
  if !r.2 && isAdd then r.1 ++ [(startIdx, targetIdx)] else r.1

/-- Outer box loop of the link-gesture resolution: every box containing the
pointer is considered (the loop does not stop after the first hit); hitting the
gesture's start box breaks out of the loop. -/
def linkGestureBoxLoop (px py : ℚ) (startIdx : Nat) (isAdd : Bool) :
    List (Box ℚ) → Nat → List Link → List Link
  | [], _, links => links
  | b :: rest, j, links =>
      if rectContains b px py then
        if j = startIdx then links
        else linkGestureBoxLoop px py startIdx isAdd rest (j + 1)
          (resolveLinkTarget startIdx j isAdd links)
      else linkGestureBoxLoop px py startIdx isAdd rest (j + 1) links

/-- The first toolbar button containing the pointer, if any
(`for (let button of this.buttons) { if (contains(...)) { onclick; return } }`). -/
def firstButtonHit (px py : ℚ) : Option Nat :=
  (List.range 5).find? (fun i => buttonContains i px py)

/-- `onPointerUp(ev, p)`.  `rand` supplies the `Math.random()` draws a shuffle
click would consume. -/
def onPointerUp (rand : Nat → ℚ × ℚ) (px py : ℚ) (s : GState) : GState :=
  if s.dragging.isSome then { s with dragging := none }
  else
    match s.linkAction with
    | some (startIdx, isAdd) =>
        let s1 := { s with boxes := setHoveredAt startIdx false s.boxes }
        let s2 := { s1 with links := linkGestureBoxLoop px py startIdx isAdd s1.boxes 0 s1.links }
        let s3 := { s2 with boxes := setHoveredAt startIdx false s2.boxes }
        { s3 with linkAction := none }
    | none =>
        match firstButtonHit px py with
        | some i => buttonClick rand i s
        | none =>
            if s.activeTool == Tool.add then
              match s.phantomBox with
              | some pb => { s with boxes := s.boxes ++ [pb], phantomBox := none }
              | none => s
            else s

/-- `removeNode`: the link bookkeeping of the remove tool
(`onPointerDown`, remove branch): drop every link referencing the removed
index, then decrement every index greater than it. -/
def removeLinksFor (k : Nat) (links : List Link) : List Link :=
  (links.filter (fun l => l.1 != k && l.2 != k)).map
    (fun l => (if l.1 < k then l.1 else l.1 - 1, if l.2 < k then l.2 else l.2 - 1))

/-- The box loop of `onPointerDown`.  A JavaScript `for...of` loop reads the
element at the iterator's current position and then advances it, so when the
remove branch splices out the current element the element that shifted into its
place is skipped — modelled by recursing to position `idx + 1` of the spliced
list.  The loop has no break: every box containing the pointer is processed
(only shift-click pin/unpin returns early).  `fuel` only bounds the recursion;
`boxes.length + 1` is always enough. -/
def pointerDownLoop (shift : Bool) (px py : ℚ) : Nat → Nat → GState → GState
  | 0, _, s => s
  | fuel + 1, idx, s =>
      match s.boxes.get? idx with
      | none => s
      | some b =>
          if rectContains b px py then
            match s.activeTool with
            | .hand =>
                if shift then
                  { s with boxes := s.boxes.set idx ({ b with pinned := !b.pinned }) }
                else
                  pointerDownLoop shift px py fuel (idx + 1)
                    { s with
                        draggingStartX := px - b.x, draggingStartY := py - b.y,
                        dragging := some idx,
                        boxes := s.boxes.set idx ({ b with hovered := true, pinned := true }) }
            | .link =>
                pointerDownLoop shift px py fuel (idx + 1)
                  { s with
                      linkAction := some (idx, !shift), hoveredIdx := none,
                      boxes := s.boxes.set idx ({ b with hovered := true }) }
            | .add => pointerDownLoop shift px py fuel (idx + 1) s
            | .remove =>
                pointerDownLoop shift px py fuel (idx + 1)
                  { s with links := removeLinksFor idx s.links, boxes := s.boxes.eraseIdx idx }
          else pointerDownLoop shift px py fuel (idx + 1) s

/-- `onPointerDown(ev, p)` (`shift` is `ev.shiftKey`). -/
def onPointerDown (shift : Bool) (px py : ℚ) (s : GState) : GState :=
  if s.dragging.isSome || s.linkAction.isSome then s
  else pointerDownLoop shift px py (s.boxes.length + 1) 0 s

/-- Clear the currently hovered box's flag
(`if (this.hovered) { this.hovered.hovered = false; this.hovered = undefined }`). -/
def clearHover (s : GState) : GState :=
  match s.hoveredIdx with
  | some i => { s with boxes := setHoveredAt i false s.boxes, hoveredIdx := none }
  | none => s

/-- The first box containing the pointer, if any (the hover pass of
`onPointerMove` returns after the first hit). -/
def firstBoxHit (px py : ℚ) (boxes : List (Box ℚ)) : Option Nat :=
  (List.range boxes.length).find? (fun i =>
    match boxes.get? i with
    | some b => rectContains b px py
    | none => false)

/-- The next auto-generated label code:
`((last.charCodeAt(0) − 'a'.charCodeAt(0) + 1) % 26) + 'a'.charCodeAt(0)`,
defaulting to the successor of `'z'` (code 122) on an empty collection.  All
reachable labels are `'a'..'z'` (codes 97–122), where natural-number
subtraction agrees with the source's signed arithmetic. -/
def nextLabel (boxes : List (Box ℚ)) : Nat :=
  let c := ((boxes.getLast?).map Box.text).getD 122
  (c - 97 + 1) % 26 + 97

/-- `onPointerMove(ev, p)`.  `r1`, `r2` supply the two `Math.random()` draws a
lazy phantom-box creation would consume (each in `[0, 1)`). -/
def onPointerMove (r1 r2 : ℚ) (px py : ℚ) (s : GState) : GState :=
  match s.dragging with
  | some i =>
      match s.boxes.get? i with
      | some b =>
          let b2 : Box ℚ := { b with x := px - s.draggingStartX, y := py - s.draggingStartY }
          { s with boxes := s.boxes.set i b2 }
      | none => s
  | none =>
      let s := { s with buttonHover := (List.range 5).map (fun i => buttonContains i px py) }
      if s.activeTool == Tool.add then
        let pb :=
          match s.phantomBox with
          | some pb => pb
          | none =>
              { x := 0, y := 0,
                w := ((⌊r1 * 50⌋ : ℤ) : ℚ) + 50, h := ((⌊r2 * 50⌋ : ℤ) : ℚ) + 50,
                text := nextLabel s.boxes, pinned := false, hovered := false }
        { s with phantomBox := some { pb with x := px - pb.w / 2, y := py - pb.h / 2 } }
      else
        let s := { s with phantomBox := none }
        let s := clearHover s
        match firstBoxHit px py s.boxes with
        | some i =>
            if s.linkAction.map Prod.fst ≠ some i then
              { s with hoveredIdx := some i, boxes := setHoveredAt i true s.boxes }
            else s
        | none => s

/-- The eight startup boxes' sizes and label codes (`'a'..'h'`). -/
def initSizes : List (ℚ × ℚ × Nat) :=
  [(50, 50, 97), (80, 50, 98), (50, 50, 99), (50, 80, 100),
   (50, 80, 101), (50, 50, 102), (80, 50, 103), (50, 50, 104)]

/-- The constructor's state: the eight boxes at random integer positions
`x = ⌊r·(width − w)⌋`, `y = ⌊r·(height − h)⌋`, the startup links, hand tool,
first button pressed, no interaction in progress. -/
def initState (W H : ℚ) (rs : Nat → ℚ × ℚ) : GState :=
  { width := W, height := H,
    boxes := (List.range initSizes.length).zipWith (fun i whc =>
      { x := ((⌊(rs i).1 * (W - whc.1)⌋ : ℤ) : ℚ),
        y := ((⌊(rs i).2 * (H - whc.2.1)⌋ : ℤ) : ℚ),
        w := whc.1, h := whc.2.1, text := whc.2.2,
        pinned := false, hovered := false }) initSizes,
    links := [(0, 1), (0, 2), (1, 2), (1, 3), (3, 4), (4, 5), (4, 6), (5, 6)],
    phantomBox := none, activeTool := .hand,
    dragging := none, draggingStartX := 0, draggingStartY := 0,
    linkAction := none, hoveredIdx := none,
    pressed := [true, false, false, false, false],
    buttonHover := [false, false, false, false, false] }

/-- States reachable from the constructor through pointer events.  Random
draws are quantified (constrained to `[0, 1)` as `Math.random()` guarantees).
Simulation ticks (`draw`) mutate only box positions and read, never write, the
tool and phantom-box fields, so they are omitted: every state reachable here
is reachable in the source. -/
inductive Reachable : GState → Prop where
  | init (W H : ℚ) (rs : Nat → ℚ × ℚ)
      (h : ∀ i, 0 ≤ (rs i).1 ∧ (rs i).1 < 1 ∧ 0 ≤ (rs i).2 ∧ (rs i).2 < 1) :
      Reachable (initState W H rs)
  | up (s : GState) (rand : Nat → ℚ × ℚ) (px py : ℚ)
      (h : ∀ i, 0 ≤ (rand i).1 ∧ (rand i).1 < 1 ∧ 0 ≤ (rand i).2 ∧ (rand i).2 < 1) :
      Reachable s → Reachable (onPointerUp rand px py s)
  | down (s : GState) (shift : Bool) (px py : ℚ) :
      Reachable s → Reachable (onPointerDown shift px py s)
  | move (s : GState) (r1 r2 px py : ℚ)
      (h1 : 0 ≤ r1 ∧ r1 < 1) (h2 : 0 ≤ r2 ∧ r2 < 1) :
      Reachable s → Reachable (onPointerMove r1 r2 px py s)

/-! ### A model of IEEE-754 special values

`JSNum` models a JavaScript number as either an exact rational or one of the
special values NaN, `+Infinity`, `-Infinity`.  The operations below implement
the IEEE-754 / ECMAScript rules for special values exactly; finite results are
kept exact instead of rounded, and signed zero is not distinguished — on every
path evaluated by the theorems below all finite intermediate results are
exactly representable and no negative zero arises, so the model agrees with
double arithmetic there. -/

inductive JSNum where
  | num (q : ℚ)
  | nan
  | inf
  | ninf
deriving DecidableEq, Repr

namespace JSNum

/-- IEEE negation. -/
def jsNeg : JSNum → JSNum
  | num q => num (-q)
  | nan => nan
  | inf => ninf
  | ninf => inf

/-- IEEE addition (NaN propagates; `∞ + (−∞) = NaN`). -/
def jsAdd : JSNum → JSNum → JSNum
  | nan, _ => nan
  | _, nan => nan
  | inf, ninf => nan
  | ninf, inf => nan
  | inf, _ => inf
  | _, inf => inf
  | ninf, _ => ninf
  | _, ninf => ninf
  | num a, num b => num (a + b)

/-- IEEE subtraction, `a − b = a + (−b)`. -/
def jsSub (a b : JSNum) : JSNum := jsAdd a (jsNeg b)

/-- IEEE multiplication (NaN propagates; `0 · ∞ = NaN`; signs otherwise). -/
def jsMul : JSNum → JSNum → JSNum
  | nan, _ => nan
  | _, nan => nan
  | inf, inf => inf
  | inf, ninf => ninf
  | ninf, inf => ninf
  | ninf, ninf => inf
  | inf, num q => if q = 0 then nan else if 0 < q then inf else ninf
  | num q, inf => if q = 0 then nan else if 0 < q then inf else ninf
  | ninf, num q => if q = 0 then nan else if 0 < q then ninf else inf
  | num q, ninf => if q = 0 then nan else if 0 < q then ninf else inf
  | num a, num b => num (a * b)

/-- IEEE division: NaN propagates, `0/0 = NaN`, `x/0 = ±∞` for `x ≠ 0`,
`∞/∞ = NaN`, finite `x / ±∞ = 0`. -/
def jsDiv : JSNum → JSNum → JSNum
  | nan, _ => nan
  | _, nan => nan
  | inf, inf => nan
  | inf, ninf => nan
  | ninf, inf => nan
  | ninf, ninf => nan
  | inf, num q => if 0 ≤ q then inf else ninf
  | ninf, num q => if 0 ≤ q then ninf else inf
  | num _, inf => num 0
  | num _, ninf => num 0
  | num a, num b =>
      if b = 0 then (if a = 0 then nan else if 0 < a then inf else ninf)
      else num (a / b)

/-- `Math.min` (returns NaN if either argument is NaN). -/
def jsMin : JSNum → JSNum → JSNum
  | nan, _ => nan
  | _, nan => nan
  | inf, b => b
  | a, inf => a
  | ninf, _ => ninf
  | _, ninf => ninf
  | num a, num b => num (min a b)

/-- `Math.max` (returns NaN if either argument is NaN). -/
def jsMax : JSNum → JSNum → JSNum
  | nan, _ => nan
  | _, nan => nan
  | inf, _ => inf
  | _, inf => inf
  | ninf, b => b
  | a, ninf => a
  | num a, num b => num (max a b)

/-- The `<=` comparison (false whenever either operand is NaN — IEEE
comparisons with NaN are unordered). -/
def jsLe : JSNum → JSNum → Bool
  | nan, _ => false
  | _, nan => false
  | ninf, _ => true
  | _, ninf => false
  | _, inf => true
  | inf, _ => false
  | num a, num b => decide (a ≤ b)

end JSNum

open JSNum in
/-- `box.centre.x = rect.x + rect.w / 2` over `JSNum`. -/
def jsCentreX (b : Box JSNum) : JSNum := jsAdd b.x (jsDiv b.w (num 2))

open JSNum in
/-- `box.centre.y = rect.y + rect.h / 2` over `JSNum`. -/
def jsCentreY (b : Box JSNum) : JSNum := jsAdd b.y (jsDiv b.h (num 2))

open JSNum in
/-- `box.mass = rect.w * rect.h` over `JSNum`. -/
def jsMass (b : Box JSNum) : JSNum := jsMul b.w b.h

open JSNum in
/-- Gravity vector x-component: `screenCentre.x - box.centre.x`, where the
screen centre is the centre of the canvas rect `{0, 0, W, H}` (canvas rect
modelled from the spec's drawing-surface size). -/
def jsGravityVx (W : JSNum) (b : Box JSNum) : JSNum :=
  jsSub (jsAdd (num 0) (jsDiv W (num 2))) (jsCentreX b)

open JSNum in
/-- Gravity vector y-component. -/
def jsGravityVy (H : JSNum) (b : Box JSNum) : JSNum :=
  jsSub (jsAdd (num 0) (jsDiv H (num 2))) (jsCentreY b)

open JSNum in
/-- The gravity contribution of the `draw` loop (source lines 126–137) with the
computed length supplied explicitly (the source's `const len = Math.sqrt(...)`
binding): normalise the vector, scale by `GRAVITY_FORCE = 120` and the centre
falloff `Math.min(1, len / ((w + h) / 2))`. -/
def jsGravityGiven (vx vy len : JSNum) (b : Box JSNum) : JSNum × JSNum :=
  let nx := jsDiv vx len
  let ny := jsDiv vy len
  let falloff := jsMin (num 1) (jsDiv len (jsDiv (jsAdd b.w b.h) (num 2)))
  (jsMul (jsMul nx (num 120)) falloff, jsMul (jsMul ny (num 120)) falloff)

open JSNum in
/-- The gravity contribution, with `len = sqrt(vx² + vy²)` (`x ** 2` computed
as `x · x`, exact for the IEEE special values and the exact inputs used). -/
def jsGravityTerm (sqrtFn : JSNum → JSNum) (W H : JSNum) (b : Box JSNum) : JSNum × JSNum :=
  jsGravityGiven (jsGravityVx W b) (jsGravityVy H b)
    (sqrtFn (jsAdd (jsMul (jsGravityVx W b) (jsGravityVx W b))
      (jsMul (jsGravityVy H b) (jsGravityVy H b)))) b

open JSNum in
/-- Repulsion vector x-component: `box.centre.x - other.centre.x`. -/
def jsRepVx (b o : Box JSNum) : JSNum := jsSub (jsCentreX b) (jsCentreX o)

open JSNum in
/-- Repulsion vector y-component. -/
def jsRepVy (b o : Box JSNum) : JSNum := jsSub (jsCentreY b) (jsCentreY o)

open JSNum in
/-- The repulsion contribution of one other box (source lines 139–152) with
the length supplied explicitly: `falloff = ((mass_b + mass_o) / 2) ·
(INTER_NODE_REPULSION / len)²` with `INTER_NODE_REPULSION = 12`. -/
def jsRepulsionGiven (vx vy len : JSNum) (b o : Box JSNum) : JSNum × JSNum :=
  let nx := jsDiv vx len
  let ny := jsDiv vy len
  let t := jsDiv (num 12) len
  let falloff := jsMul (jsDiv (jsAdd (jsMass b) (jsMass o)) (num 2)) (jsMul t t)
  (jsMul nx falloff, jsMul ny falloff)

open JSNum in
/-- The repulsion contribution of `o` on `b`, with `len = sqrt(vx² + vy²)`. -/
def jsRepulsionTerm (sqrtFn : JSNum → JSNum) (b o : Box JSNum) : JSNum × JSNum :=
  jsRepulsionGiven (jsRepVx b o) (jsRepVy b o)
    (sqrtFn (jsAdd (jsMul (jsRepVx b o) (jsRepVx b o)) (jsMul (jsRepVy b o) (jsRepVy b o)))) b o

open JSNum in
/-- The link-attraction contribution of one linked box (source lines 154–160):
`(other.centre - box.centre) * avgMass * LINK_ATTRACTION` with
`LINK_ATTRACTION = 1/8000` (kept exact; the value never matters below). -/
def jsAttractionTerm (b o : Box JSNum) : JSNum × JSNum :=
  let am := jsDiv (jsAdd (jsMass b) (jsMass o)) (num 2)
  (jsMul (jsMul (jsSub (jsCentreX o) (jsCentreX b)) am) (num (1 / 8000)),
   jsMul (jsMul (jsSub (jsCentreY o) (jsCentreY b)) am) (num (1 / 8000)))

/-- The linked neighbour indices of box `i`, in link-table order
(`linked(box)` in the source, which pushes `boxes[link[1]]` when
`link[0] === boxIdx` and vice versa). -/
def linkedIdxs (links : List Link) (i : Nat) : List Nat :=
  links.filterMap (fun l =>
    if l.1 = i then some l.2 else if l.2 = i then some l.1 else none)

open JSNum in
/-- The net force of one `draw` iteration on the box at index `i`: start from
`(0, 0)`; if the box is pinned nothing is added; otherwise add the gravity
contribution, then the repulsion of every *other* box (the source skips only
`box === other`, i.e. the same array position), then the attraction of every
linked box, all in source order. -/
def jsNetForce (sqrtFn : JSNum → JSNum) (W H : JSNum) (boxes : List (Box JSNum))
    (links : List Link) (i : Nat) : JSNum × JSNum :=
  match boxes.get? i with
  | none => (num 0, num 0)
  | some b =>
      if b.pinned then (num 0, num 0)
      else
        let g := jsGravityTerm sqrtFn W H b
        let f0 := (jsAdd (num 0) g.1, jsAdd (num 0) g.2)
        let f1 := (List.range boxes.length).foldl (fun f j =>
          if j = i then f
          else
            match boxes.get? j with
            | some o =>
                let r := jsRepulsionTerm sqrtFn b o
                (jsAdd f.1 r.1, jsAdd f.2 r.2)
            | none => f) f0
        (linkedIdxs links i).foldl (fun f j =>
          match boxes.get? j with
          | some o =>
              let a := jsAttractionTerm b o
              (jsAdd f.1 a.1, jsAdd f.2 a.2)
          | none => f) f1

open JSNum in
/-- One iteration of the `draw` loop for index `i` over `JSNum`:
`rect += force * delta`, then clamp each coordinate with
`Math.max(·, -w * 0.5)` and `Math.min(·, width - w * 0.5)` (source lines
163–170); `Math.max`/`Math.min` propagate NaN, so a NaN force makes the
stored position NaN. -/
def jsStepBox (sqrtFn : JSNum → JSNum) (W H δ : JSNum) (links : List Link)
    (boxes : List (Box JSNum)) (i : Nat) : List (Box JSNum) :=
  match boxes.get? i with
  | none => boxes
  | some b =>
      boxes.set i ({ b with
        x := jsMin (jsMax (jsAdd b.x (jsMul (jsNetForce sqrtFn W H boxes links i).1 δ))
              (jsMul (jsNeg b.w) (num (1 / 2))))
            (jsSub W (jsMul b.w (num (1 / 2)))),
        y := jsMin (jsMax (jsAdd b.y (jsMul (jsNetForce sqrtFn W H boxes links i).2 δ))
              (jsMul (jsNeg b.h) (num (1 / 2))))
            (jsSub H (jsMul b.h (num (1 / 2)))) })

/-- The loop iterations for indices `k-1, …, 0` over `JSNum`, each reading the
in-place updates of the previous ones. -/
def jsTickAux (sqrtFn : JSNum → JSNum) (W H δ : JSNum) (links : List Link) :
    Nat → List (Box JSNum) → List (Box JSNum)
  | 0, boxes => boxes
  | k + 1, boxes => jsTickAux sqrtFn W H δ links k (jsStepBox sqrtFn W H δ links boxes k)

/-- One full simulation tick over the `JSNum` float model (the faithful
counterpart of `tick` below, with NaN/∞ propagation). -/
def jsTick (sqrtFn : JSNum → JSNum) (W H δ : JSNum) (boxes : List (Box JSNum))
    (links : List Link) : List (Box JSNum) :=
  jsTickAux sqrtFn W H δ links boxes.length boxes

/-! ### The force simulation over an ordered field

The same `draw` loop, with JavaScript doubles idealised as exact elements of a
linear ordered field (the theorems instantiate `ℝ`; keeping the definitions
generic keeps them executable, e.g. over `ℚ`).  The square root is a parameter
`sqrtFn`; the theorems constrain it (or are independent of it) and their
witnesses instantiate it with `Real.sqrt`.

Caveat: in a field, division by zero yields `0`, so this layer collapses the
source's unguarded zero-length normalisation (`0/0 = NaN`, see C3/C7) into a
zero contribution.  It is therefore used only for claims whose inputs or
statements never exercise that error path (C8's scenario keeps the length
strictly positive; C4 and C10 are flag- and order-structural); everything
about the zero-distance behaviour — including the clamp claim C9, which NaN
defeats — is settled on the `JSNum` layer above, which models the error path
faithfully. -/

variable {α : Type} [LinearOrderedField α]

/-- `box.centre.x` (`rect.x + rect.w / 2`). -/
def centreX (b : Box α) : α := b.x + b.w / 2

/-- `box.centre.y` (`rect.y + rect.h / 2`). -/
def centreY (b : Box α) : α := b.y + b.h / 2

/-- `box.mass` (`rect.w * rect.h`). -/
def massOf (b : Box α) : α := b.w * b.h

/-- The gravity contribution of the `draw` loop (source lines 126–137) with
the computed length supplied explicitly (the source's `const len` binding):
`norm · GRAVITY_FORCE · min(1, len / ((w + h) / 2))` with
`GRAVITY_FORCE = 120`. -/
def gravityGiven (vx vy len : α) (b : Box α) : α × α :=
  (vx / len * 120 * min 1 (len / ((b.w + b.h) / 2)),
   vy / len * 120 * min 1 (len / ((b.w + b.h) / 2)))

/-- The gravity contribution on an unpinned box, with
`len = sqrt(vx² + vy²)` and the vector pointing from the box centre to the
canvas centre `(0 + W/2, 0 + H/2)`. -/
def gravityTerm (sqrtFn : α → α) (W H : α) (b : Box α) : α × α :=
  gravityGiven ((0 + W / 2) - centreX b) ((0 + H / 2) - centreY b)
    (sqrtFn (((0 + W / 2) - centreX b) * ((0 + W / 2) - centreX b)
      + ((0 + H / 2) - centreY b) * ((0 + H / 2) - centreY b))) b

/-- The repulsion contribution (source lines 139–152) with the length
supplied explicitly: `falloff = ((mass_b + mass_o) / 2) · (12 / len)²`. -/
def repulsionGiven (vx vy len : α) (b o : Box α) : α × α :=
  (vx / len * (((massOf b + massOf o) / 2) * ((12 / len) * (12 / len))),
   vy / len * (((massOf b + massOf o) / 2) * ((12 / len) * (12 / len))))

/-- The repulsion contribution of box `o` on box `b`, with
`len = sqrt(vx² + vy²)`. -/
def repulsionTerm (sqrtFn : α → α) (b o : Box α) : α × α :=
  repulsionGiven (centreX b - centreX o) (centreY b - centreY o)
    (sqrtFn ((centreX b - centreX o) * (centreX b - centreX o)
      + (centreY b - centreY o) * (centreY b - centreY o))) b o

/-- The link-attraction contribution of box `o` on box `b`
(source lines 154–160). -/
def attractionTerm (b o : Box α) : α × α :=
  ((centreX o - centreX b) * ((massOf b + massOf o) / 2) * (1 / 8000),
   (centreY o - centreY b) * ((massOf b + massOf o) / 2) * (1 / 8000))

/-- The net force on the box at index `i`: zero when pinned, otherwise gravity
plus the repulsion of every other box plus the attraction of every linked box. -/
def netForce (sqrtFn : α → α) (W H : α) (boxes : List (Box α)) (links : List Link)
    (i : Nat) : α × α :=
  match boxes.get? i with
  | none => (0, 0)
  | some b =>
      if b.pinned then (0, 0)
      else
        (linkedIdxs links i).foldl (fun f j =>
          match boxes.get? j with
          | some o => (f.1 + (attractionTerm b o).1, f.2 + (attractionTerm b o).2)
          | none => f)
          ((List.range boxes.length).foldl (fun f j =>
            if j = i then f
            else
              match boxes.get? j with
              | some o => (f.1 + (repulsionTerm sqrtFn b o).1, f.2 + (repulsionTerm sqrtFn b o).2)
              | none => f) (gravityTerm sqrtFn W H b))

/-- One iteration of the `draw` loop for index `i`: integrate
`rect += force * delta` and clamp each coordinate into
`[-w·0.5, width - w·0.5] × [-h·0.5, height - h·0.5]` (source lines 163–170);
the clamp applies to pinned boxes as well. -/
def stepBox (sqrtFn : α → α) (W H δ : α) (links : List Link)
    (boxes : List (Box α)) (i : Nat) : List (Box α) :=
  match boxes.get? i with
  | none => boxes
  | some b =>
      let f := netForce sqrtFn W H boxes links i
      let x := min (max (b.x + f.1 * δ) (-(b.w * 0.5))) (W - b.w * 0.5)
      let y := min (max (b.y + f.2 * δ) (-(b.h * 0.5))) (H - b.h * 0.5)
      boxes.set i ({ b with x := x, y := y })

/-- `tickAux k` performs the loop iterations for indices `k-1, k-2, …, 0`, in
that order, each one reading the list as already modified by the previous
iterations (the in-place updates of the source). -/
def tickAux (sqrtFn : α → α) (W H δ : α) (links : List Link) :
    Nat → List (Box α) → List (Box α)
  | 0, boxes => boxes
  | k + 1, boxes => tickAux sqrtFn W H δ links k (stepBox sqrtFn W H δ links boxes k)

/-- One full simulation tick (`draw` with elapsed time `δ` seconds): the boxes
are processed in strictly decreasing index order, `length - 1` down to `0`. -/
def tick (sqrtFn : α → α) (W H δ : α) (boxes : List (Box α)) (links : List Link) :
    List (Box α) :=
  tickAux sqrtFn W H δ links boxes.length boxes

/-- `stepsAbove i m` performs the loop iterations for the `m` indices above
`i`, namely `i+m, i+m-1, …, i+1`, in decreasing order — the portion of a tick
that runs before index `i` is processed. -/
def stepsAbove (sqrtFn : α → α) (W H δ : α) (links : List Link) (i : Nat) :
    Nat → List (Box α) → List (Box α)
  | 0, boxes => boxes
  | m + 1, boxes => stepsAbove sqrtFn W H δ links i m (stepBox sqrtFn W H δ links boxes (i + 1 + m))

/-- Pin the box at index `j` (used to state that pinning a box does not change
the force it exerts on others). -/
def setPinnedAt (j : Nat) (p : Bool) (boxes : List (Box α)) : List (Box α) :=
  match boxes.get? j with
  | some c => boxes.set j ({ c with pinned := p })
  | none => boxes

/-- The geometric data of a box, which is all the force terms read from the
*other* box of a pair. -/
def boxRect (b : Box α) : α × α × α × α := (b.x, b.y, b.w, b.h)

/-- Renumbering of one link endpoint after removal of index `k`, as the claim
states it: indices below `k` unchanged, indices above `k` decremented. -/
def adjIdx (k a : Nat) : Nat := if a < k then a else a - 1

/-- Convenience constructor for concrete boxes: position, size, pinned flag
(label `'a'`, not hovered). -/
def mkBox {β : Type} (x y w h : β) (p : Bool) : Box β :=
  { x := x, y := y, w := w, h := h, text := 97, pinned := p, hovered := false }

/-- The index of the *last* box containing the pointer among indices `≥ idx`
(`fuel`-bounded like `pointerDownLoop`); used to state what the missing break
in `onPointerDown` makes the hand tool do. -/
def lastHitAux (px py : ℚ) (boxes : List (Box ℚ)) : Nat → Nat → Option Nat
  | 0, _ => none
  | fuel + 1, idx =>
      match boxes.get? idx with
      | none => none
      | some b =>
          match lastHitAux px py boxes fuel (idx + 1) with
          | some j => some j
          | none => if rectContains b px py then some idx else none

/-- The index of the last box containing the pointer, if any. -/
def lastBoxHit (px py : ℚ) (boxes : List (Box ℚ)) : Option Nat :=
  lastHitAux px py boxes (boxes.length + 1) 0

/-- Three 10×10 boxes in a row at `(0,0)`, `(20,0)`, `(40,0)` (the 3-node
chain of Scenario D; also used for the link-gesture evaluation). -/
def chainBoxes3 : List (Box ℚ) :=
  [mkBox 0 0 10 10 false, mkBox 20 0 10 10 false, mkBox 40 0 10 10 false]

/-- A state in the middle of an add-link gesture from box 0 over the 3-node
chain with links `[(0,1), (1,2)]`. -/
def c1State : GState :=
  { width := 800, height := 600, boxes := chainBoxes3, links := [(0, 1), (1, 2)],
    phantomBox := none, activeTool := .link,
    dragging := none, draggingStartX := 0, draggingStartY := 0,
    linkAction := some (0, true), hoveredIdx := none,
    pressed := [false, true, false, false, false],
    buttonHover := [false, false, false, false, false] }

/-- An idle hand-tool state with two exactly overlapping 10×10 boxes at the
origin. -/
def c5State : GState :=
  { width := 800, height := 600,
    boxes := [mkBox 0 0 10 10 false, mkBox 0 0 10 10 false], links := [],
    phantomBox := none, activeTool := .hand,
    dragging := none, draggingStartX := 0, draggingStartY := 0,
    linkAction := none, hoveredIdx := none,
    pressed := [true, false, false, false, false],
    buttonHover := [false, false, false, false, false] }

/-- A fixed random stream (every draw is `0`, which lies in `[0, 1)`). -/
def zeroRand : Nat → ℚ × ℚ := fun _ => (0, 0)

end RepulsiveRects

/-! ## Theorems -/

namespace RepulsiveRects

/-- C1: the source violates the claim.  `foundDuplicate` is reassigned on each
loop iteration, so after the loop it only records whether the *last* link
matches; with `links = [(0,1), (1,2)]`, resolving an add-link gesture from
box 0 released inside box 1 fails to see the existing `(0,1)` link and appends
a second copy, leaving two entries with the same unordered pair — so the
creation is not idempotent and the no-duplicate invariant fails. -/
theorem c1_addLink_creates_duplicate :
    (onPointerUp zeroRand 25 5 c1State).links = [(0, 1), (1, 2), (0, 1)] ∧
    (onPointerUp zeroRand 25 5 c1State).links.count ((0 : Nat), (1 : Nat)) = 2 := by
  have h : (onPointerUp zeroRand 25 5 c1State).links = [(0, 1), (1, 2), (0, 1)] := by
    norm_num [onPointerUp, c1State, chainBoxes3, mkBox, zeroRand, setHoveredAt,
      linkGestureBoxLoop, resolveLinkTarget, linkDupLoop, linkIncludes, rectContains]
  exact ⟨h, by rw [h]; rfl⟩

/-- C2: removing the node at index `k` maps the link table exactly as the
claim states — links referencing `k` are dropped, every other endpoint below
`k` is unchanged and every endpoint above `k` is decremented (`adjIdx`) — and
Scenario D holds: removing the middle node of the 3-node chain with links
`[(0,1), (1,2)]` leaves an empty link table and a 2-node collection. -/
theorem c2_remove_node_renumbering (k : Nat) (links : List Link) :
    removeLinksFor k links
        = links.filterMap (fun l =>
            if l.1 = k ∨ l.2 = k then none else some (adjIdx k l.1, adjIdx k l.2)) ∧
    removeLinksFor 1 [(0, 1), (1, 2)] = [] ∧
    (chainBoxes3.eraseIdx 1).length = 2 := by
  refine ⟨?_, by norm_num [removeLinksFor], by norm_num [chainBoxes3]⟩
  induction links with
  | nil => rfl
  | cons l ls ih =>
      unfold removeLinksFor at ih ⊢
      by_cases h1 : l.1 = k <;> by_cases h2 : l.2 = k <;>
        simp [List.filter_cons, List.filterMap_cons, h1, h2, adjIdx, ih]

open JSNum in
/-- C3: the source violates the claim.  There is no zero-length guard: with
two boxes whose centres coincide (both centred on the canvas centre of an
800×600 canvas), the gravity normalisation computes `0 / 0 = NaN` and the
repulsion normalisation does the same (its falloff is `∞`), so the net force
on box 0 is `(NaN, NaN)` — not finite — and the same NaN flows into the
position state.  `sqrtFn` is any model of `Math.sqrt`, constrained only by
`Math.sqrt(0) = 0`, the single value this input reaches. -/
theorem c3_coincident_centres_nan (sqrtFn : JSNum → JSNum)
    (h : sqrtFn (JSNum.num 0) = JSNum.num 0) :
    jsNetForce sqrtFn (JSNum.num 800) (JSNum.num 600)
        [mkBox (JSNum.num 375) (JSNum.num 275) (JSNum.num 50) (JSNum.num 50) false,
         mkBox (JSNum.num 375) (JSNum.num 275) (JSNum.num 50) (JSNum.num 50) false] [] 0
      = (JSNum.nan, JSNum.nan) ∧
    jsNetForce sqrtFn (JSNum.num 800) (JSNum.num 600)
        [mkBox (JSNum.num 375) (JSNum.num 275) (JSNum.num 50) (JSNum.num 50) false,
         mkBox (JSNum.num 375) (JSNum.num 275) (JSNum.num 50) (JSNum.num 50) false] [] 1
      = (JSNum.nan, JSNum.nan) := by
  have hg : jsGravityTerm sqrtFn (JSNum.num 800) (JSNum.num 600)
      (mkBox (JSNum.num 375) (JSNum.num 275) (JSNum.num 50) (JSNum.num 50) false)
      = (JSNum.nan, JSNum.nan) := by
    unfold jsGravityTerm
    rw [show jsAdd
        (jsMul (jsGravityVx (JSNum.num 800)
            (mkBox (JSNum.num 375) (JSNum.num 275) (JSNum.num 50) (JSNum.num 50) false))
          (jsGravityVx (JSNum.num 800)
            (mkBox (JSNum.num 375) (JSNum.num 275) (JSNum.num 50) (JSNum.num 50) false)))
        (jsMul (jsGravityVy (JSNum.num 600)
            (mkBox (JSNum.num 375) (JSNum.num 275) (JSNum.num 50) (JSNum.num 50) false))
          (jsGravityVy (JSNum.num 600)
            (mkBox (JSNum.num 375) (JSNum.num 275) (JSNum.num 50) (JSNum.num 50) false)))
        = JSNum.num 0 from by norm_num [jsGravityVx, jsGravityVy, jsCentreX, jsCentreY,
          mkBox, JSNum.jsAdd, JSNum.jsMul, JSNum.jsSub, JSNum.jsNeg, JSNum.jsDiv], h]
    norm_num [jsGravityGiven, jsGravityVx, jsGravityVy, jsCentreX, jsCentreY, mkBox,
      JSNum.jsAdd, JSNum.jsMul, JSNum.jsSub, JSNum.jsNeg, JSNum.jsDiv, JSNum.jsMin]
  have hr : jsRepulsionTerm sqrtFn
      (mkBox (JSNum.num 375) (JSNum.num 275) (JSNum.num 50) (JSNum.num 50) false)
      (mkBox (JSNum.num 375) (JSNum.num 275) (JSNum.num 50) (JSNum.num 50) false)
      = (JSNum.nan, JSNum.nan) := by
    unfold jsRepulsionTerm
    rw [show jsAdd
        (jsMul (jsRepVx
            (mkBox (JSNum.num 375) (JSNum.num 275) (JSNum.num 50) (JSNum.num 50) false)
            (mkBox (JSNum.num 375) (JSNum.num 275) (JSNum.num 50) (JSNum.num 50) false))
          (jsRepVx
            (mkBox (JSNum.num 375) (JSNum.num 275) (JSNum.num 50) (JSNum.num 50) false)
            (mkBox (JSNum.num 375) (JSNum.num 275) (JSNum.num 50) (JSNum.num 50) false)))
        (jsMul (jsRepVy
            (mkBox (JSNum.num 375) (JSNum.num 275) (JSNum.num 50) (JSNum.num 50) false)
            (mkBox (JSNum.num 375) (JSNum.num 275) (JSNum.num 50) (JSNum.num 50) false))
          (jsRepVy
            (mkBox (JSNum.num 375) (JSNum.num 275) (JSNum.num 50) (JSNum.num 50) false)
            (mkBox (JSNum.num 375) (JSNum.num 275) (JSNum.num 50) (JSNum.num 50) false)))
        = JSNum.num 0 from by norm_num [jsRepVx, jsRepVy, jsCentreX, jsCentreY,
          mkBox, JSNum.jsAdd, JSNum.jsMul, JSNum.jsSub, JSNum.jsNeg, JSNum.jsDiv], h]
    norm_num [jsRepulsionGiven, jsRepVx, jsRepVy, jsCentreX, jsCentreY, jsMass, mkBox,
      JSNum.jsAdd, JSNum.jsMul, JSNum.jsSub, JSNum.jsNeg, JSNum.jsDiv, JSNum.jsMin]
  have hnet : jsNetForce sqrtFn (JSNum.num 800) (JSNum.num 600)
      [mkBox (JSNum.num 375) (JSNum.num 275) (JSNum.num 50) (JSNum.num 50) false,
       mkBox (JSNum.num 375) (JSNum.num 275) (JSNum.num 50) (JSNum.num 50) false] [] 0
      = (jsAdd (jsAdd (JSNum.num 0)
            (jsGravityTerm sqrtFn (JSNum.num 800) (JSNum.num 600)
              (mkBox (JSNum.num 375) (JSNum.num 275) (JSNum.num 50) (JSNum.num 50) false)).1)
          (jsRepulsionTerm sqrtFn
            (mkBox (JSNum.num 375) (JSNum.num 275) (JSNum.num 50) (JSNum.num 50) false)
            (mkBox (JSNum.num 375) (JSNum.num 275) (JSNum.num 50) (JSNum.num 50) false)).1,
         jsAdd (jsAdd (JSNum.num 0)
            (jsGravityTerm sqrtFn (JSNum.num 800) (JSNum.num 600)
              (mkBox (JSNum.num 375) (JSNum.num 275) (JSNum.num 50) (JSNum.num 50) false)).2)
          (jsRepulsionTerm sqrtFn
            (mkBox (JSNum.num 375) (JSNum.num 275) (JSNum.num 50) (JSNum.num 50) false)
            (mkBox (JSNum.num 375) (JSNum.num 275) (JSNum.num 50) (JSNum.num 50) false)).2) :=
    rfl
  have hnet1 : jsNetForce sqrtFn (JSNum.num 800) (JSNum.num 600)
      [mkBox (JSNum.num 375) (JSNum.num 275) (JSNum.num 50) (JSNum.num 50) false,
       mkBox (JSNum.num 375) (JSNum.num 275) (JSNum.num 50) (JSNum.num 50) false] [] 1
      = (jsAdd (jsAdd (JSNum.num 0)
            (jsGravityTerm sqrtFn (JSNum.num 800) (JSNum.num 600)
              (mkBox (JSNum.num 375) (JSNum.num 275) (JSNum.num 50) (JSNum.num 50) false)).1)
          (jsRepulsionTerm sqrtFn
            (mkBox (JSNum.num 375) (JSNum.num 275) (JSNum.num 50) (JSNum.num 50) false)
            (mkBox (JSNum.num 375) (JSNum.num 275) (JSNum.num 50) (JSNum.num 50) false)).1,
         jsAdd (jsAdd (JSNum.num 0)
            (jsGravityTerm sqrtFn (JSNum.num 800) (JSNum.num 600)
              (mkBox (JSNum.num 375) (JSNum.num 275) (JSNum.num 50) (JSNum.num 50) false)).2)
          (jsRepulsionTerm sqrtFn
            (mkBox (JSNum.num 375) (JSNum.num 275) (JSNum.num 50) (JSNum.num 50) false)
            (mkBox (JSNum.num 375) (JSNum.num 275) (JSNum.num 50) (JSNum.num 50) false)).2) :=
    rfl
  refine ⟨?_, ?_⟩
  · rw [hnet, hg, hr]
    rfl
  · rw [hnet1, hg, hr]
    rfl

/-- C3 witness: instantiating the square-root model with the constant-zero
function (which satisfies `sqrt 0 = 0`) exhibits the NaN net force. -/
theorem c3_coincident_centres_nan_witness :
    jsNetForce (fun _ => JSNum.num 0) (JSNum.num 800) (JSNum.num 600)
        [mkBox (JSNum.num 375) (JSNum.num 275) (JSNum.num 50) (JSNum.num 50) false,
         mkBox (JSNum.num 375) (JSNum.num 275) (JSNum.num 50) (JSNum.num 50) false] [] 0
      = (JSNum.nan, JSNum.nan) ∧
    jsNetForce (fun _ => JSNum.num 0) (JSNum.num 800) (JSNum.num 600)
        [mkBox (JSNum.num 375) (JSNum.num 275) (JSNum.num 50) (JSNum.num 50) false,
         mkBox (JSNum.num 375) (JSNum.num 275) (JSNum.num 50) (JSNum.num 50) false] [] 1
      = (JSNum.nan, JSNum.nan) :=
  c3_coincident_centres_nan (fun _ => JSNum.num 0) rfl

open JSNum in
/-- C7: the source violates the claim.  For an unpinned node whose centre sits
exactly on the canvas centre, the falloff factor is indeed `0`, but the
normalised direction is `0 / 0 = NaN` and `NaN · 120 · 0 = NaN`, so the
gravity term adds `NaN` to the force — a non-finite value, not zero. -/
theorem c7_gravity_at_centre_nan (sqrtFn : JSNum → JSNum)
    (h : sqrtFn (JSNum.num 0) = JSNum.num 0) :
    jsGravityTerm sqrtFn (JSNum.num 800) (JSNum.num 600)
        (mkBox (JSNum.num 375) (JSNum.num 275) (JSNum.num 50) (JSNum.num 50) false)
      = (JSNum.nan, JSNum.nan) := by
  unfold jsGravityTerm
  rw [show jsAdd
      (jsMul (jsGravityVx (JSNum.num 800)
          (mkBox (JSNum.num 375) (JSNum.num 275) (JSNum.num 50) (JSNum.num 50) false))
        (jsGravityVx (JSNum.num 800)
          (mkBox (JSNum.num 375) (JSNum.num 275) (JSNum.num 50) (JSNum.num 50) false)))
      (jsMul (jsGravityVy (JSNum.num 600)
          (mkBox (JSNum.num 375) (JSNum.num 275) (JSNum.num 50) (JSNum.num 50) false))
        (jsGravityVy (JSNum.num 600)
          (mkBox (JSNum.num 375) (JSNum.num 275) (JSNum.num 50) (JSNum.num 50) false)))
      = JSNum.num 0 from by norm_num [jsGravityVx, jsGravityVy, jsCentreX, jsCentreY,
        mkBox, JSNum.jsAdd, JSNum.jsMul, JSNum.jsSub, JSNum.jsNeg, JSNum.jsDiv], h]
  norm_num [jsGravityGiven, jsGravityVx, jsGravityVy, jsCentreX, jsCentreY, mkBox,
    JSNum.jsAdd, JSNum.jsMul, JSNum.jsSub, JSNum.jsNeg, JSNum.jsDiv, JSNum.jsMin]

/-- C7 witness: the constant-zero square-root model exhibits the NaN gravity
term. -/
theorem c7_gravity_at_centre_nan_witness :
    jsGravityTerm (fun _ => JSNum.num 0) (JSNum.num 800) (JSNum.num 600)
        (mkBox (JSNum.num 375) (JSNum.num 275) (JSNum.num 50) (JSNum.num 50) false)
      = (JSNum.nan, JSNum.nan) :=
  c7_gravity_at_centre_nan (fun _ => JSNum.num 0) rfl

/-! ### Helper lemmas about the tick loop -/

variable {α : Type} [LinearOrderedField α]

theorem stepBox_length (sqrtFn : α → α) (W H δ : α) (links : List Link)
    (boxes : List (Box α)) (i : Nat) :
    (stepBox sqrtFn W H δ links boxes i).length = boxes.length := by
  unfold stepBox
  cases boxes.get? i <;> simp

theorem stepBox_get?_ne (sqrtFn : α → α) (W H δ : α) (links : List Link)
    (boxes : List (Box α)) (i j : Nat) (h : j ≠ i) :
    (stepBox sqrtFn W H δ links boxes i).get? j = boxes.get? j := by
  unfold stepBox
  cases boxes.get? i with
  | none => rfl
  | some b => exact List.get?_set_ne _ _ (fun he => h he.symm)

theorem tickAux_get?_of_le (sqrtFn : α → α) (W H δ : α) (links : List Link) :
    ∀ (k : Nat) (boxes : List (Box α)) (j : Nat), k ≤ j →
      (tickAux sqrtFn W H δ links k boxes).get? j = boxes.get? j := by
  intro k
  induction k with
  | zero => intro boxes j _; rfl
  | succ k ih =>
      intro boxes j hkj
      have h1 : (tickAux sqrtFn W H δ links (k + 1) boxes)
          = tickAux sqrtFn W H δ links k (stepBox sqrtFn W H δ links boxes k) := rfl
      rw [h1, ih _ j (Nat.le_of_succ_le hkj),
        stepBox_get?_ne _ _ _ _ _ _ _ _ (by omega)]

theorem tickAux_length (sqrtFn : α → α) (W H δ : α) (links : List Link) :
    ∀ (k : Nat) (boxes : List (Box α)),
      (tickAux sqrtFn W H δ links k boxes).length = boxes.length := by
  intro k
  induction k with
  | zero => intro boxes; rfl
  | succ k ih => intro boxes; rw [show tickAux sqrtFn W H δ links (k + 1) boxes
      = tickAux sqrtFn W H δ links k (stepBox sqrtFn W H δ links boxes k) from rfl,
      ih, stepBox_length]

theorem lt_length_of_get?_eq_some {β : Type} {l : List β} {n : Nat} {a : β}
    (h : l.get? n = some a) : n < l.length := by
  by_contra hn
  rw [List.get?_eq_none.mpr (by omega)] at h
  exact Option.noConfusion h

/-- The box written by the `i`-th loop iteration is the clamped one. -/
theorem stepBox_get?_self (sqrtFn : α → α) (W H δ : α) (links : List Link)
    (boxes : List (Box α)) (i : Nat) (b : Box α) (hget : boxes.get? i = some b) :
    (stepBox sqrtFn W H δ links boxes i).get? i
      = some { b with
          x := min (max (b.x + (netForce sqrtFn W H boxes links i).1 * δ) (-(b.w * 0.5)))
                (W - b.w * 0.5),
          y := min (max (b.y + (netForce sqrtFn W H boxes links i).2 * δ) (-(b.h * 0.5)))
                (H - b.h * 0.5) } := by
  unfold stepBox
  rw [hget]
  exact List.get?_set_eq_of_lt _ (lt_length_of_get?_eq_some hget)

theorem clamp_bounds {lo hi v : α} (h : lo ≤ hi) :
    lo ≤ min (max v lo) hi ∧ min (max v lo) hi ≤ hi :=
  ⟨le_min (le_max_right v lo) h, min_le_right _ _⟩

theorem jsStepBox_get?_ne (sqrtFn : JSNum → JSNum) (W H δ : JSNum) (links : List Link)
    (boxes : List (Box JSNum)) (i j : Nat) (h : j ≠ i) :
    (jsStepBox sqrtFn W H δ links boxes i).get? j = boxes.get? j := by
  unfold jsStepBox
  cases boxes.get? i with
  | none => rfl
  | some b => exact List.get?_set_ne _ _ (fun he => h he.symm)

theorem jsTickAux_get?_of_le (sqrtFn : JSNum → JSNum) (W H δ : JSNum) (links : List Link) :
    ∀ (k : Nat) (boxes : List (Box JSNum)) (j : Nat), k ≤ j →
      (jsTickAux sqrtFn W H δ links k boxes).get? j = boxes.get? j := by
  intro k
  induction k with
  | zero => intro boxes j _; rfl
  | succ k ih =>
      intro boxes j hkj
      rw [show jsTickAux sqrtFn W H δ links (k + 1) boxes
          = jsTickAux sqrtFn W H δ links k (jsStepBox sqrtFn W H δ links boxes k) from rfl,
        ih _ j (Nat.le_of_succ_le hkj),
        jsStepBox_get?_ne _ _ _ _ _ _ _ _ (by omega)]

open JSNum in
/-- The box written by the `i`-th loop iteration over `JSNum` is the clamped
one (whatever special values flow through the arithmetic). -/
theorem jsStepBox_get?_self (sqrtFn : JSNum → JSNum) (W H δ : JSNum) (links : List Link)
    (boxes : List (Box JSNum)) (i : Nat) (b : Box JSNum) (hget : boxes.get? i = some b) :
    (jsStepBox sqrtFn W H δ links boxes i).get? i
      = some { b with
          x := jsMin (jsMax (jsAdd b.x (jsMul (jsNetForce sqrtFn W H boxes links i).1 δ))
                (jsMul (jsNeg b.w) (num (1 / 2))))
              (jsSub W (jsMul b.w (num (1 / 2)))),
          y := jsMin (jsMax (jsAdd b.y (jsMul (jsNetForce sqrtFn W H boxes links i).2 δ))
                (jsMul (jsNeg b.h) (num (1 / 2))))
              (jsSub H (jsMul b.h (num (1 / 2)))) } := by
  unfold jsStepBox
  rw [hget]
  exact List.get?_set_eq_of_lt _ (lt_length_of_get?_eq_some hget)

open JSNum in
/-- Whenever the NaN-propagating clamp produces an actual number, that number
lies between the (finite) bounds: a NaN input yields NaN, `+∞` is cut to the
upper bound, `-∞` to the lower, and a finite input is clamped. -/
theorem jsClamp_finite_bounds (v : JSNum) (lo hi q : ℚ) (hlohi : lo ≤ hi)
    (h : jsMin (jsMax v (num lo)) (num hi) = num q) : lo ≤ q ∧ q ≤ hi := by
  cases v with
  | nan => exact absurd h (by simp [jsMax, jsMin])
  | inf =>
      have hq : hi = q := by simpa [jsMax, jsMin] using h
      exact ⟨hq ▸ hlohi, le_of_eq hq.symm⟩
  | ninf =>
      have hq : min lo hi = q := by simpa [jsMax, jsMin] using h
      exact ⟨hq ▸ le_min le_rfl hlohi, hq ▸ min_le_right lo hi⟩
  | num p =>
      have hq : min (max p lo) hi = q := by simpa [jsMax, jsMin] using h
      exact hq ▸ clamp_bounds (v := p) hlohi

open JSNum in
theorem jsTickAux_clamped_finite (sqrtFn : JSNum → JSNum) (Wq Hq : ℚ) (δ : JSNum)
    (links : List Link) (hW : 0 ≤ Wq) (hH : 0 ≤ Hq) :
    ∀ (k : Nat) (boxes : List (Box JSNum)) (i : Nat) (b' : Box JSNum), i < k →
      (jsTickAux sqrtFn (num Wq) (num Hq) δ links k boxes).get? i = some b' →
      ∀ (wq hq qx qy : ℚ), b'.w = num wq → b'.h = num hq → b'.x = num qx → b'.y = num qy →
        -(wq * (1 / 2)) ≤ qx ∧ qx ≤ Wq - wq * (1 / 2) ∧
          -(hq * (1 / 2)) ≤ qy ∧ qy ≤ Hq - hq * (1 / 2) := by
  intro k
  induction k with
  | zero => intro boxes i b' hik; omega
  | succ k ih =>
      intro boxes i b' hik hget
      rw [show jsTickAux sqrtFn (num Wq) (num Hq) δ links (k + 1) boxes
          = jsTickAux sqrtFn (num Wq) (num Hq) δ links k
              (jsStepBox sqrtFn (num Wq) (num Hq) δ links boxes k) from rfl] at hget
      by_cases hk : i < k
      · exact ih _ i b' hk hget
      · have hik2 : i = k := by omega
        subst hik2
        rw [jsTickAux_get?_of_le _ _ _ _ _ _ _ i le_rfl] at hget
        cases hb : boxes.get? i with
        | none =>
            rw [show jsStepBox sqrtFn (num Wq) (num Hq) δ links boxes i = boxes from by
              unfold jsStepBox; rw [hb], hb] at hget
            exact Option.noConfusion hget
        | some b =>
            rw [jsStepBox_get?_self _ _ _ _ _ _ _ _ hb] at hget
            have hb' := Option.some.inj hget
            subst hb'
            intro wq hq qx qy hw hh hx hy
            have hbw : b.w = num wq := hw
            have hbh : b.h = num hq := hh
            have hx2 : jsMin (jsMax (jsAdd b.x
                  (jsMul (jsNetForce sqrtFn (num Wq) (num Hq) boxes links i).1 δ))
                  (jsMul (jsNeg b.w) (num (1 / 2))))
                  (jsSub (num Wq) (jsMul b.w (num (1 / 2)))) = num qx := hx
            have hy2 : jsMin (jsMax (jsAdd b.y
                  (jsMul (jsNetForce sqrtFn (num Wq) (num Hq) boxes links i).2 δ))
                  (jsMul (jsNeg b.h) (num (1 / 2))))
                  (jsSub (num Hq) (jsMul b.h (num (1 / 2)))) = num qy := hy
            rw [hbw] at hx2
            rw [hbh] at hy2
            rw [show jsMul (jsNeg (num wq)) (num (1 / 2)) = num ((-wq) * (1 / 2)) from rfl,
              show jsSub (num Wq) (jsMul (num wq) (num (1 / 2)))
                = num (Wq + -(wq * (1 / 2))) from rfl] at hx2
            rw [show jsMul (jsNeg (num hq)) (num (1 / 2)) = num ((-hq) * (1 / 2)) from rfl,
              show jsSub (num Hq) (jsMul (num hq) (num (1 / 2)))
                = num (Hq + -(hq * (1 / 2))) from rfl] at hy2
            obtain ⟨ha1, ha2⟩ := jsClamp_finite_bounds _ _ _ _
              (by linarith : (-wq) * (1 / 2) ≤ Wq + -(wq * (1 / 2))) hx2
            obtain ⟨hb1, hb2⟩ := jsClamp_finite_bounds _ _ _ _
              (by linarith : (-hq) * (1 / 2) ≤ Hq + -(hq * (1 / 2))) hy2
            refine ⟨by linarith, by linarith, by linarith, by linarith⟩

open JSNum in
/-- C9 (amended): after every tick, every box whose stored coordinates are
actual (finite) numbers lies within the clamp region
`[-w/2, width - w/2] × [-h/2, height - h/2]`: the clamp is applied
unconditionally after integration and maps every number it produces into the
region, for finite as well as infinite integration results.  The finiteness
proviso is necessary: a NaN net force — reachable through the missing
zero-distance guard, cf. C3/C7 — propagates through `Math.max`/`Math.min`, so
such a box's stored position is NaN and lies in no interval (see the
counterexample theorem). -/
theorem c9_finite_positions_clamped (sqrtFn : JSNum → JSNum) (Wq Hq : ℚ) (δ : JSNum)
    (boxes : List (Box JSNum)) (links : List Link) (i : Nat) (b' : Box JSNum)
    (hW : 0 ≤ Wq) (hH : 0 ≤ Hq)
    (hget : (jsTick sqrtFn (num Wq) (num Hq) δ boxes links).get? i = some b')
    (wq hq qx qy : ℚ)
    (hw : b'.w = num wq) (hh : b'.h = num hq)
    (hx : b'.x = num qx) (hy : b'.y = num qy) :
    -(wq * (1 / 2)) ≤ qx ∧ qx ≤ Wq - wq * (1 / 2) ∧
      -(hq * (1 / 2)) ≤ qy ∧ qy ≤ Hq - hq * (1 / 2) := by
  by_cases hi : i < boxes.length
  · exact jsTickAux_clamped_finite sqrtFn Wq Hq δ links hW hH boxes.length boxes i b' hi
      hget wq hq qx qy hw hh hx hy
  · exfalso
    unfold jsTick at hget
    rw [jsTickAux_get?_of_le _ _ _ _ _ _ _ i (by omega),
      List.get?_eq_none.mpr (by omega)] at hget
    exact Option.noConfusion hget

open JSNum in
/-- C9 witness: a pinned 50×50 box at `(10, 10)` on an 800×600 canvas keeps
finite coordinates through a tick and they satisfy the clamp bounds. -/
theorem c9_finite_positions_clamped_witness :
    -((50:ℚ) * (1 / 2)) ≤ 10 ∧ (10:ℚ) ≤ 800 - 50 * (1 / 2) ∧
      -((50:ℚ) * (1 / 2)) ≤ 10 ∧ (10:ℚ) ≤ 600 - 50 * (1 / 2) :=
  c9_finite_positions_clamped (fun _ => num 0) 800 600 (num 1)
    [mkBox (num 10) (num 10) (num 50) (num 50) true] [] 0
    (mkBox (num 10) (num 10) (num 50) (num 50) true)
    (by norm_num) (by norm_num)
    (by
      rw [show jsTick (fun _ => num 0) (num 800) (num 600) (num 1)
          [mkBox (num 10) (num 10) (num 50) (num 50) true] []
          = jsStepBox (fun _ => num 0) (num 800) (num 600) (num 1) []
              [mkBox (num 10) (num 10) (num 50) (num 50) true] 0 from rfl,
        jsStepBox_get?_self (fun _ => num 0) (num 800) (num 600) (num 1) []
          [mkBox (num 10) (num 10) (num 50) (num 50) true] 0
          (mkBox (num 10) (num 10) (num 50) (num 50) true) rfl]
      norm_num [jsNetForce, mkBox, JSNum.jsAdd, JSNum.jsMul, JSNum.jsNeg, JSNum.jsSub,
        JSNum.jsMin, JSNum.jsMax, min_def, max_def])
    50 50 10 10 rfl rfl rfl rfl

open JSNum in
/-- C9 counterexample: the claim as stated — *every* node's position lies in
the clamp region after *every* tick — is false on the code.  A single
unpinned 50×50 box whose centre sits exactly on the centre of an 800×600
canvas (rect `(375, 275)`, reachable by a drag or by the random initial
placement) receives the NaN net force of C7; `rect.x += NaN` and the
NaN-propagating `Math.max`/`Math.min` clamps then store NaN coordinates,
which satisfy neither inequality of the claimed interval (IEEE comparisons
with NaN are false). -/
theorem c9_nan_position_escapes_clamp :
    (jsTick (fun _ => num 0) (num 800) (num 600) (num 1)
        [mkBox (num 375) (num 275) (num 50) (num 50) false] []).get? 0
      = some (mkBox nan nan (num 50) (num 50) false) ∧
    jsLe (jsMul (jsNeg (num 50)) (num (1 / 2))) nan = false ∧
    jsLe nan (jsSub (num 800) (jsMul (num 50) (num (1 / 2)))) = false := by
  refine ⟨?_, rfl, rfl⟩
  have hg : jsGravityTerm (fun _ => num 0) (num 800) (num 600)
      (mkBox (num 375) (num 275) (num 50) (num 50) false) = (nan, nan) := by
    norm_num [jsGravityTerm, jsGravityGiven, jsGravityVx, jsGravityVy, jsCentreX,
      jsCentreY, mkBox, jsAdd, jsMul, jsSub, jsNeg, jsDiv, jsMin]
  have hF : jsNetForce (fun _ => num 0) (num 800) (num 600)
      [mkBox (num 375) (num 275) (num 50) (num 50) false] [] 0 = (nan, nan) := by
    rw [show jsNetForce (fun _ => num 0) (num 800) (num 600)
        [mkBox (num 375) (num 275) (num 50) (num 50) false] [] 0
        = (jsAdd (num 0) (jsGravityTerm (fun _ => num 0) (num 800) (num 600)
            (mkBox (num 375) (num 275) (num 50) (num 50) false)).1,
           jsAdd (num 0) (jsGravityTerm (fun _ => num 0) (num 800) (num 600)
            (mkBox (num 375) (num 275) (num 50) (num 50) false)).2) from rfl, hg]
    rfl
  rw [show jsTick (fun _ => num 0) (num 800) (num 600) (num 1)
      [mkBox (num 375) (num 275) (num 50) (num 50) false] []
      = jsStepBox (fun _ => num 0) (num 800) (num 600) (num 1) []
          [mkBox (num 375) (num 275) (num 50) (num 50) false] 0 from rfl,
    jsStepBox_get?_self (fun _ => num 0) (num 800) (num 600) (num 1) []
      [mkBox (num 375) (num 275) (num 50) (num 50) false] 0
      (mkBox (num 375) (num 275) (num 50) (num 50) false) rfl, hF]
  rfl

theorem tickAux_split (sqrtFn : α → α) (W H δ : α) (links : List Link) :
    ∀ (m i : Nat) (boxes : List (Box α)),
      tickAux sqrtFn W H δ links (i + 1 + m) boxes
        = tickAux sqrtFn W H δ links (i + 1) (stepsAbove sqrtFn W H δ links i m boxes) := by
  intro m
  induction m with
  | zero => intro i boxes; rfl
  | succ m ih =>
      intro i boxes
      show tickAux sqrtFn W H δ links ((i + 1 + m) + 1) boxes = _
      rw [show tickAux sqrtFn W H δ links ((i + 1 + m) + 1) boxes
          = tickAux sqrtFn W H δ links (i + 1 + m)
              (stepBox sqrtFn W H δ links boxes (i + 1 + m)) from rfl,
        ih i (stepBox sqrtFn W H δ links boxes (i + 1 + m))]
      rfl

/-- C10: within one tick, the boxes are processed in strictly decreasing index
order and each position is written in place at its own iteration; the value a
tick leaves at index `i` is exactly the result of stepping box `i` on the
state in which the boxes of index greater than `i` — and only those — have
already received their current-tick updates (`stepsAbove`).  The later
iterations (indices below `i`) never write index `i` again. -/
theorem c10_forces_use_updated_higher_indices (sqrtFn : ℝ → ℝ) (W H δ : ℝ)
    (boxes : List (Box ℝ)) (links : List Link) (i : Nat) (h : i < boxes.length) :
    (tick sqrtFn W H δ boxes links).get? i
      = (stepBox sqrtFn W H δ links
          (stepsAbove sqrtFn W H δ links i (boxes.length - 1 - i) boxes) i).get? i := by
  have hn : boxes.length = i + 1 + (boxes.length - 1 - i) := by omega
  unfold tick
  conv_lhs => rw [hn]
  rw [tickAux_split sqrtFn W H δ links (boxes.length - 1 - i) i boxes,
    show tickAux sqrtFn W H δ links (i + 1)
        (stepsAbove sqrtFn W H δ links i (boxes.length - 1 - i) boxes)
      = tickAux sqrtFn W H δ links i
          (stepBox sqrtFn W H δ links
            (stepsAbove sqrtFn W H δ links i (boxes.length - 1 - i) boxes) i) from rfl]
  exact tickAux_get?_of_le sqrtFn W H δ links i _ i le_rfl

/-- C10 witness: the decomposition at index 0 of a two-box state. -/
theorem c10_forces_use_updated_higher_indices_witness :
    (tick (fun _ => (0:ℝ)) 800 600 1
        [mkBox (0:ℝ) 0 10 10 false, mkBox (30:ℝ) 0 10 10 false] []).get? 0
      = (stepBox (fun _ => (0:ℝ)) 800 600 1 []
          (stepsAbove (fun _ => (0:ℝ)) 800 600 1 [] 0
            ([mkBox (0:ℝ) 0 10 10 false, mkBox (30:ℝ) 0 10 10 false].length - 1 - 0)
            [mkBox (0:ℝ) 0 10 10 false, mkBox (30:ℝ) 0 10 10 false]) 0).get? 0 :=
  c10_forces_use_updated_higher_indices (fun _ => (0:ℝ)) 800 600 1
    [mkBox (0:ℝ) 0 10 10 false, mkBox (30:ℝ) 0 10 10 false] [] 0 (by norm_num)

/-- A pinned box whose bounds already lie inside the clamp region is written
back unchanged by its own loop iteration. -/
theorem stepBox_pinned_in_range (sqrtFn : α → α) (W H δ : α) (links : List Link)
    (boxes : List (Box α)) (i : Nat) (b : Box α)
    (hget : boxes.get? i = some b) (hpin : b.pinned = true)
    (hx1 : -(b.w * 0.5) ≤ b.x) (hx2 : b.x ≤ W - b.w * 0.5)
    (hy1 : -(b.h * 0.5) ≤ b.y) (hy2 : b.y ≤ H - b.h * 0.5) :
    (stepBox sqrtFn W H δ links boxes i).get? i = some b := by
  rw [stepBox_get?_self sqrtFn W H δ links boxes i b hget]
  have hf : netForce sqrtFn W H boxes links i = (0, 0) := by
    unfold netForce
    rw [hget]
    simp [hpin]
  rw [hf]
  rw [show b.x + ((0:α), (0:α)).1 * δ = b.x by ring,
    show b.y + ((0:α), (0:α)).2 * δ = b.y by ring,
    max_eq_left hx1, min_eq_left hx2, max_eq_left hy1, min_eq_left hy2]

theorem tickAux_pinned_fixed (sqrtFn : α → α) (W H δ : α) (links : List Link)
    (i : Nat) (b : Box α) (hpin : b.pinned = true)
    (hx1 : -(b.w * 0.5) ≤ b.x) (hx2 : b.x ≤ W - b.w * 0.5)
    (hy1 : -(b.h * 0.5) ≤ b.y) (hy2 : b.y ≤ H - b.h * 0.5) :
    ∀ (k : Nat) (boxes : List (Box α)), boxes.get? i = some b →
      (tickAux sqrtFn W H δ links k boxes).get? i = some b := by
  intro k
  induction k with
  | zero => intro boxes hget; exact hget
  | succ k ih =>
      intro boxes hget
      rw [show tickAux sqrtFn W H δ links (k + 1) boxes
        = tickAux sqrtFn W H δ links k (stepBox sqrtFn W H δ links boxes k) from rfl]
      by_cases hk : k = i
      · subst hk
        exact ih _ (stepBox_pinned_in_range sqrtFn W H δ links boxes k b hget hpin
          hx1 hx2 hy1 hy2)
      · exact ih _ ((stepBox_get?_ne sqrtFn W H δ links boxes k i
          (fun he => hk he.symm)).trans hget)

theorem attractionTerm_rect_eq (b : Box α) {o1 o2 : Box α}
    (h : boxRect o2 = boxRect o1) : attractionTerm b o2 = attractionTerm b o1 := by
  obtain ⟨hx, hy, hw, hh⟩ : o2.x = o1.x ∧ o2.y = o1.y ∧ o2.w = o1.w ∧ o2.h = o1.h := by
    simpa [boxRect, Prod.ext_iff] using h
  unfold attractionTerm centreX centreY massOf
  rw [hx, hy, hw, hh]

theorem repulsionTerm_rect_eq (sqrtFn : α → α) (b : Box α) {o1 o2 : Box α}
    (h : boxRect o2 = boxRect o1) : repulsionTerm sqrtFn b o2 = repulsionTerm sqrtFn b o1 := by
  obtain ⟨hx, hy, hw, hh⟩ : o2.x = o1.x ∧ o2.y = o1.y ∧ o2.w = o1.w ∧ o2.h = o1.h := by
    simpa [boxRect, Prod.ext_iff] using h
  unfold repulsionTerm repulsionGiven centreX centreY massOf
  rw [hx, hy, hw, hh]

/-- The net force on box `i` only reads the positions and sizes of the other
boxes, never their flags; two states that agree on box `i` and on every box's
rect yield the same force. -/
theorem netForce_rect_ext (sqrtFn : α → α) (W H : α) (boxes1 boxes2 : List (Box α))
    (links : List Link) (i : Nat)
    (hlen : boxes2.length = boxes1.length)
    (hi : boxes2.get? i = boxes1.get? i)
    (hrect : ∀ j, (boxes2.get? j).map boxRect = (boxes1.get? j).map boxRect) :
    netForce sqrtFn W H boxes2 links i = netForce sqrtFn W H boxes1 links i := by
  unfold netForce
  rw [hi, hlen]
  cases hgi : boxes1.get? i with
  | none => rfl
  | some b =>
      by_cases hp : b.pinned
      · simp [hp]
      · simp only [hp, Bool.false_eq_true, if_false]
        have hbodyAtt : ∀ (l : List Nat) (f : α × α),
            l.foldl (fun f j =>
              match boxes2.get? j with
              | some o => (f.1 + (attractionTerm b o).1, f.2 + (attractionTerm b o).2)
              | none => f) f
              = l.foldl (fun f j =>
                match boxes1.get? j with
                | some o => (f.1 + (attractionTerm b o).1, f.2 + (attractionTerm b o).2)
                | none => f) f := by
          intro l
          induction l with
          | nil => intro f; rfl
          | cons a l ih =>
              intro f
              rw [List.foldl_cons, List.foldl_cons, ih]
              congr 1
              have h := hrect a
              cases h2 : boxes2.get? a with
              | none =>
                  cases h1 : boxes1.get? a with
                  | none => rfl
                  | some o1 => rw [h2, h1] at h; exact absurd h (by simp)
              | some o2 =>
                  cases h1 : boxes1.get? a with
                  | none => rw [h2, h1] at h; exact absurd h (by simp)
                  | some o1 =>
                      rw [h2, h1] at h
                      have heq := attractionTerm_rect_eq b
                        (Option.some.inj (by simpa using h))
                      simp only [heq]
        have hbodyRep : ∀ (l : List Nat) (f : α × α),
            l.foldl (fun f j =>
              if j = i then f
              else
                match boxes2.get? j with
                | some o => (f.1 + (repulsionTerm sqrtFn b o).1, f.2 + (repulsionTerm sqrtFn b o).2)
                | none => f) f
              = l.foldl (fun f j =>
                if j = i then f
                else
                  match boxes1.get? j with
                  | some o => (f.1 + (repulsionTerm sqrtFn b o).1, f.2 + (repulsionTerm sqrtFn b o).2)
                  | none => f) f := by
          intro l
          induction l with
          | nil => intro f; rfl
          | cons a l ih =>
              intro f
              rw [List.foldl_cons, List.foldl_cons, ih]
              congr 1
              by_cases ha : a = i
              · rw [if_pos ha, if_pos ha]
              · rw [if_neg ha, if_neg ha]
                have h := hrect a
                cases h2 : boxes2.get? a with
                | none =>
                    cases h1 : boxes1.get? a with
                    | none => rfl
                    | some o1 => rw [h2, h1] at h; exact absurd h (by simp)
                | some o2 =>
                    cases h1 : boxes1.get? a with
                    | none => rw [h2, h1] at h; exact absurd h (by simp)
                    | some o1 =>
                        rw [h2, h1] at h
                        have heq := repulsionTerm_rect_eq sqrtFn b
                          (Option.some.inj (by simpa using h))
                        simp only [heq]
        rw [hbodyAtt, hbodyRep]

/-- C4 (amended): a pinned box whose bounds lie inside the clamp region keeps
identical bounds over any sequence of ticks, and pinning or unpinning any
*other* box never changes the force computed on a box — pinned boxes remain
full repulsion/attraction sources.  (The in-range hypothesis is necessary:
see the counterexample theorem.) -/
theorem c4_pinned_fixed_and_source (sqrtFn : ℝ → ℝ) (W H : ℝ)
    (boxes : List (Box ℝ)) (links : List Link) (i : Nat) (b : Box ℝ)
    (hget : boxes.get? i = some b) (hpin : b.pinned = true)
    (hx1 : -(b.w * 0.5) ≤ b.x) (hx2 : b.x ≤ W - b.w * 0.5)
    (hy1 : -(b.h * 0.5) ≤ b.y) (hy2 : b.y ≤ H - b.h * 0.5) :
    (∀ δs : List ℝ,
      (δs.foldl (fun bs δ => tick sqrtFn W H δ bs links) boxes).get? i = some b) ∧
    (∀ (j : Nat) (p : Bool), j ≠ i →
      netForce sqrtFn W H (setPinnedAt j p boxes) links i
        = netForce sqrtFn W H boxes links i) := by
  constructor
  · intro δs
    induction δs generalizing boxes with
    | nil => exact hget
    | cons δ δs ih =>
        rw [List.foldl_cons]
        exact ih _ (tickAux_pinned_fixed sqrtFn W H δ links i b hpin
          hx1 hx2 hy1 hy2 boxes.length boxes hget)
  · intro j p hji
    unfold setPinnedAt
    cases hj : boxes.get? j with
    | none => rfl
    | some c =>
        apply netForce_rect_ext
        · exact List.length_set ..
        · exact List.get?_set_ne _ _ hji
        · intro j'
          by_cases hjj : j = j'
          · subst hjj
            rw [List.get?_set_eq_of_lt _ (lt_length_of_get?_eq_some hj), hj]
            rfl
          · rw [List.get?_set_ne _ _ hjj]

/-- C4 witness: a pinned 50×50 box at `(10, 10)` on an 800×600 canvas with one
other box present. -/
theorem c4_pinned_fixed_and_source_witness :
    (∀ δs : List ℝ,
      (δs.foldl (fun bs δ => tick (fun _ => (0:ℝ)) 800 600 δ bs [])
          [mkBox (10:ℝ) 10 50 50 true, mkBox (200:ℝ) 200 50 50 false]).get? 0
        = some (mkBox (10:ℝ) 10 50 50 true)) ∧
    (∀ (j : Nat) (p : Bool), j ≠ 0 →
      netForce (fun _ => (0:ℝ)) 800 600
          (setPinnedAt j p [mkBox (10:ℝ) 10 50 50 true, mkBox (200:ℝ) 200 50 50 false]) [] 0
        = netForce (fun _ => (0:ℝ)) 800 600
            [mkBox (10:ℝ) 10 50 50 true, mkBox (200:ℝ) 200 50 50 false] [] 0) :=
  c4_pinned_fixed_and_source (fun _ => (0:ℝ)) 800 600
    [mkBox (10:ℝ) 10 50 50 true, mkBox (200:ℝ) 200 50 50 false] [] 0
    (mkBox (10:ℝ) 10 50 50 true) rfl rfl
    (by norm_num [mkBox]) (by norm_num [mkBox]) (by norm_num [mkBox]) (by norm_num [mkBox])

/-- C4 counterexample: the claim as stated is false, because the clamp applies
to pinned boxes too.  A pinned 50×50 box dragged to `x = -50` (reachable: a
drag moves a box unconditionally and pins it) is moved to `x = -25` by the
very next tick, so its bounds are not identical after a tick even though it is
pinned and no drag occurs in between. -/
theorem c4_pinned_box_moved_by_clamp :
    (tick (fun _ => (0:ℝ)) 800 600 1 [mkBox (-50:ℝ) 10 50 50 true] []).get? 0
        = some (mkBox (-25:ℝ) 10 50 50 true) ∧
    mkBox (-25:ℝ) 10 50 50 true ≠ mkBox (-50:ℝ) 10 50 50 true := by
  constructor
  · have hf : netForce (fun _ => (0:ℝ)) 800 600 [mkBox (-50:ℝ) 10 50 50 true] [] 0
        = (0, 0) := by
      unfold netForce
      norm_num [mkBox]
    rw [show tick (fun _ => (0:ℝ)) 800 600 1 [mkBox (-50:ℝ) 10 50 50 true] []
        = stepBox (fun _ => (0:ℝ)) 800 600 1 [] [mkBox (-50:ℝ) 10 50 50 true] 0 from rfl,
      stepBox_get?_self (fun _ => (0:ℝ)) 800 600 1 [] [mkBox (-50:ℝ) 10 50 50 true] 0
        (mkBox (-50:ℝ) 10 50 50 true) rfl, hf]
    norm_num [mkBox, min_def, max_def]
  · intro h
    have := congrArg Box.x h
    norm_num [mkBox] at this

/-- C8 (Scenario A): on an 800×600 canvas, a single unpinned 50×50 box at
`(0, 0)` (centre `(25, 25)`) is, after one tick with `delta = 1` second, at the
centre `(25, 25) + t · ((400, 300) − (25, 25))` for some `0 < t < 1` — it
moves strictly along the segment toward the canvas centre `(400, 300)` without
overshooting it.  `sqrtFn` models `Math.sqrt`, constrained at the single value
this input reaches: `sqrt(216250)` squares back to `216250` and is positive. -/
theorem c8_scenario_a_moves_toward_centre (sqrtFn : ℝ → ℝ)
    (h1 : sqrtFn 216250 * sqrtFn 216250 = 216250) (h2 : 0 < sqrtFn 216250) :
    ∃ t : ℝ, 0 < t ∧ t < 1 ∧
      ∃ b' : Box ℝ,
        (tick sqrtFn 800 600 1 [mkBox (0:ℝ) 0 50 50 false] []).get? 0 = some b' ∧
        centreX b' = 25 + t * (400 - 25) ∧ centreY b' = 25 + t * (300 - 25) := by
  have h120 : (120 : ℝ) < sqrtFn 216250 := by nlinarith [h1, h2]
  set s := sqrtFn 216250 with hs
  have hsne : s ≠ 0 := ne_of_gt h2
  have hforce : netForce sqrtFn 800 600 [mkBox (0:ℝ) 0 50 50 false] [] 0
      = gravityTerm sqrtFn 800 600 (mkBox (0:ℝ) 0 50 50 false) := rfl
  have hgrav : gravityTerm sqrtFn 800 600 (mkBox (0:ℝ) 0 50 50 false)
      = (45000 / s, 33000 / s) := by
    unfold gravityTerm
    rw [show ((0:ℝ) + 800 / 2) - centreX (mkBox (0:ℝ) 0 50 50 false) = 375 from by
        norm_num [centreX, mkBox],
      show ((0:ℝ) + 600 / 2) - centreY (mkBox (0:ℝ) 0 50 50 false) = 275 from by
        norm_num [centreY, mkBox],
      show (375:ℝ) * 375 + 275 * 275 = 216250 from by norm_num, ← hs]
    unfold gravityGiven
    rw [show ((mkBox (0:ℝ) 0 50 50 false).w + (mkBox (0:ℝ) 0 50 50 false).h) / 2 = 50 from by
        norm_num [mkBox],
      min_eq_left (by rw [le_div_iff (by norm_num : (0:ℝ) < 50)]; linarith)]
    rw [Prod.mk.injEq]
    constructor <;> (field_simp; ring)
  have hxval : min (max ((mkBox (0:ℝ) 0 50 50 false).x
        + (netForce sqrtFn 800 600 [mkBox (0:ℝ) 0 50 50 false] [] 0).1 * 1)
        (-((mkBox (0:ℝ) 0 50 50 false).w * 0.5)))
        (800 - (mkBox (0:ℝ) 0 50 50 false).w * 0.5) = 45000 / s := by
    rw [hforce, hgrav]
    norm_num [mkBox]
    have hnn : (0:ℝ) ≤ 45000 / s := by positivity
    rw [max_eq_left (by linarith), min_eq_left (by rw [div_le_iff h2]; nlinarith)]
  have hyval : min (max ((mkBox (0:ℝ) 0 50 50 false).y
        + (netForce sqrtFn 800 600 [mkBox (0:ℝ) 0 50 50 false] [] 0).2 * 1)
        (-((mkBox (0:ℝ) 0 50 50 false).h * 0.5)))
        (600 - (mkBox (0:ℝ) 0 50 50 false).h * 0.5) = 33000 / s := by
    rw [hforce, hgrav]
    norm_num [mkBox]
    have hnn : (0:ℝ) ≤ 33000 / s := by positivity
    rw [max_eq_left (by linarith), min_eq_left (by rw [div_le_iff h2]; nlinarith)]
  refine ⟨120 / s, div_pos (by norm_num) h2, (div_lt_one h2).mpr h120,
    ⟨45000 / s, 33000 / s, 50, 50, 97, false, false⟩, ?_, ?_, ?_⟩
  · rw [show tick sqrtFn 800 600 1 [mkBox (0:ℝ) 0 50 50 false] []
        = stepBox sqrtFn 800 600 1 [] [mkBox (0:ℝ) 0 50 50 false] 0 from rfl,
      stepBox_get?_self sqrtFn 800 600 1 [] [mkBox (0:ℝ) 0 50 50 false] 0
        (mkBox (0:ℝ) 0 50 50 false) rfl, hxval, hyval]
    rfl
  · unfold centreX
    field_simp
    ring
  · unfold centreY
    field_simp
    ring

/-- C8 witness: `Real.sqrt` satisfies the two constraints, so the theorem
applies to the real square root. -/
theorem c8_scenario_a_moves_toward_centre_witness :
    ∃ t : ℝ, 0 < t ∧ t < 1 ∧
      ∃ b' : Box ℝ,
        (tick Real.sqrt 800 600 1 [mkBox (0:ℝ) 0 50 50 false] []).get? 0 = some b' ∧
        centreX b' = 25 + t * (400 - 25) ∧ centreY b' = 25 + t * (300 - 25) :=
  c8_scenario_a_moves_toward_centre Real.sqrt
    (Real.mul_self_sqrt (by norm_num)) (Real.sqrt_pos.mpr (by norm_num))

/-! ### The pointer-down loop in hand mode -/

theorem rectContains_rect_eq {b1 b2 : Box ℚ} (px py : ℚ) (h : boxRect b2 = boxRect b1) :
    rectContains b2 px py = rectContains b1 px py := by
  obtain ⟨hx, hy, hw, hh⟩ : b2.x = b1.x ∧ b2.y = b1.y ∧ b2.w = b1.w ∧ b2.h = b1.h := by
    simpa [boxRect, Prod.ext_iff] using h
  unfold rectContains
  rw [hx, hy, hw, hh]

theorem lastHitAux_rect_invariant (px py : ℚ) (boxes1 boxes2 : List (Box ℚ))
    (h : ∀ j, (boxes2.get? j).map boxRect = (boxes1.get? j).map boxRect) :
    ∀ (fuel k : Nat), lastHitAux px py boxes2 fuel k = lastHitAux px py boxes1 fuel k := by
  intro fuel
  induction fuel with
  | zero => intro k; rfl
  | succ fuel ih =>
      intro k
      unfold lastHitAux
      have hk := h k
      cases h2 : boxes2.get? k with
      | none =>
          cases h1 : boxes1.get? k with
          | none => rfl
          | some o1 => rw [h2, h1] at hk; exact absurd hk (by simp)
      | some o2 =>
          cases h1 : boxes1.get? k with
          | none => rw [h2, h1] at hk; exact absurd hk (by simp)
          | some o1 =>
              rw [h2, h1] at hk
              rw [ih (k + 1)]
              have heq := rectContains_rect_eq px py (Option.some.inj (by simpa using hk))
              simp only [heq]

/-- What the hand tool (no modifier) actually does on pointer-down, starting
at position `idx` of the loop: every box from `idx` on that contains the
pointer gets `hovered := true, pinned := true`; boxes below `idx` and
non-containing boxes are untouched; `dragging` ends up at the *last* hit (or
keeps its entering value when there is none); the tool is unchanged. -/
theorem pointerDownLoop_hand_spec (px py : ℚ) :
    ∀ (fuel idx : Nat) (s : GState),
      s.activeTool = Tool.hand →
      s.boxes.length ≤ idx + fuel →
      ((pointerDownLoop false px py fuel idx s).boxes.length = s.boxes.length) ∧
      (∀ j, j < idx →
        (pointerDownLoop false px py fuel idx s).boxes.get? j = s.boxes.get? j) ∧
      (∀ j b, idx ≤ j → s.boxes.get? j = some b →
        (pointerDownLoop false px py fuel idx s).boxes.get? j
          = some (if rectContains b px py
              then { b with hovered := true, pinned := true } else b)) ∧
      ((pointerDownLoop false px py fuel idx s).dragging
        = match lastHitAux px py s.boxes fuel idx with
          | some j => some j
          | none => s.dragging) ∧
      (pointerDownLoop false px py fuel idx s).activeTool = Tool.hand := by
  intro fuel
  induction fuel with
  | zero =>
      intro idx s htool hfuel
      refine ⟨rfl, fun j _ => rfl, ?_, rfl, htool⟩
      intro j b hij hj
      rw [List.get?_eq_none.mpr (by omega)] at hj
      exact absurd hj (by simp)
  | succ fuel ih =>
      intro idx s htool hfuel
      cases hidx : s.boxes.get? idx with
      | none =>
          have hlen : s.boxes.length ≤ idx := List.get?_eq_none.mp hidx
          have hred : pointerDownLoop false px py (fuel + 1) idx s = s := by
            unfold pointerDownLoop
            rw [hidx]
          have hl : lastHitAux px py s.boxes (fuel + 1) idx = none := by
            unfold lastHitAux
            rw [hidx]
          rw [hred, hl]
          refine ⟨rfl, fun j _ => rfl, ?_, rfl, htool⟩
          intro j b hij hj
          rw [List.get?_eq_none.mpr (by omega)] at hj
          exact absurd hj (by simp)
      | some b0 =>
          cases hc : rectContains b0 px py with
          | false =>
              have hred : pointerDownLoop false px py (fuel + 1) idx s
                  = pointerDownLoop false px py fuel (idx + 1) s := by
                conv_lhs => unfold pointerDownLoop
                rw [hidx]
                simp only [hc, Bool.false_eq_true, if_false]
              obtain ⟨ih1, ih2, ih3, ih4, ih5⟩ := ih (idx + 1) s htool (by omega)
              rw [hred]
              refine ⟨ih1, fun j hj => ih2 j (by omega), ?_, ?_, ih5⟩
              · intro j b hij hj
                by_cases hji : j = idx
                · subst hji
                  have hb : b0 = b := Option.some.inj (hidx.symm.trans hj)
                  subst hb
                  rw [ih2 j (by omega), hidx]
                  simp [hc]
                · exact ih3 j b (by omega) hj
              · rw [ih4]
                have hl : lastHitAux px py s.boxes (fuel + 1) idx
                    = lastHitAux px py s.boxes fuel (idx + 1) := by
                  conv_lhs => unfold lastHitAux
                  rw [hidx]
                  cases hrec : lastHitAux px py s.boxes fuel (idx + 1) <;> simp [hc]
                rw [hl]
          | true =>
              have hred : pointerDownLoop false px py (fuel + 1) idx s
                  = pointerDownLoop false px py fuel (idx + 1)
                      { s with
                          draggingStartX := px - b0.x, draggingStartY := py - b0.y,
                          dragging := some idx,
                          boxes := s.boxes.set idx
                            ({ b0 with hovered := true, pinned := true }) } := by
                conv_lhs => unfold pointerDownLoop
                rw [hidx]
                simp only [hc, if_true]
                rw [htool]
                rfl
              have hrect : ∀ j,
                  ((s.boxes.set idx ({ b0 with hovered := true, pinned := true })).get? j).map
                      boxRect
                    = (s.boxes.get? j).map boxRect := by
                intro j
                by_cases hji : idx = j
                · subst hji
                  rw [List.get?_set_eq_of_lt _ (lt_length_of_get?_eq_some hidx), hidx]
                  rfl
                · rw [List.get?_set_ne _ _ hji]
              obtain ⟨ih1, ih2, ih3, ih4, ih5⟩ := ih (idx + 1)
                { s with
                    draggingStartX := px - b0.x, draggingStartY := py - b0.y,
                    dragging := some idx,
                    boxes := s.boxes.set idx ({ b0 with hovered := true, pinned := true }) }
                htool (by rw [List.length_set]; omega)
              rw [hred]
              refine ⟨ih1.trans (List.length_set ..), ?_, ?_, ?_, ih5⟩
              · intro j hj
                rw [ih2 j (by omega)]
                exact List.get?_set_ne _ _ (by omega)
              · intro j b hij hj
                by_cases hji : j = idx
                · subst hji
                  have hb : b0 = b := Option.some.inj (hidx.symm.trans hj)
                  subst hb
                  rw [ih2 j (by omega),
                    List.get?_set_eq_of_lt _ (lt_length_of_get?_eq_some hidx)]
                  simp [hc]
                · rw [ih3 j b (by omega)
                    ((List.get?_set_ne _ _ (fun he => hji he.symm)).trans hj)]
              · rw [ih4, lastHitAux_rect_invariant px py s.boxes _ hrect fuel (idx + 1)]
                have hl : lastHitAux px py s.boxes (fuel + 1) idx
                    = match lastHitAux px py s.boxes fuel (idx + 1) with
                      | some j => some j
                      | none => some idx := by
                  conv_lhs => unfold lastHitAux
                  rw [hidx]
                  cases hrec : lastHitAux px py s.boxes fuel (idx + 1) <;> simp [hc]
                rw [hl]
                cases hrec : lastHitAux px py s.boxes fuel (idx + 1) <;> simp

/-- C5 (amended): the pointer-down loop hit-tests in collection order but has
no break, so the first hit does *not* win alone: in hand mode (no modifier)
every box containing the pointer is acted on — each one is flagged hovered
and pinned — and the box that ends up grabbed (`dragging`) is the *last* hit
in collection order, not the first. -/
theorem c5_hand_every_hit_acted_last_wins (s : GState) (px py : ℚ)
    (htool : s.activeTool = Tool.hand) (hdrag : s.dragging = none)
    (hlink : s.linkAction = none) :
    (∀ j b, s.boxes.get? j = some b →
      (onPointerDown false px py s).boxes.get? j
        = some (if rectContains b px py
            then { b with hovered := true, pinned := true } else b)) ∧
    (onPointerDown false px py s).dragging = lastBoxHit px py s.boxes := by
  have hred : onPointerDown false px py s
      = pointerDownLoop false px py (s.boxes.length + 1) 0 s := by
    unfold onPointerDown
    rw [hdrag, hlink]
    rfl
  obtain ⟨_, _, h3, h4, _⟩ :=
    pointerDownLoop_hand_spec px py (s.boxes.length + 1) 0 s htool (by omega)
  rw [hred]
  refine ⟨fun j b hj => h3 j b (Nat.zero_le j) hj, ?_⟩
  rw [h4, hdrag]
  unfold lastBoxHit
  cases lastHitAux px py s.boxes (s.boxes.length + 1) 0 <;> rfl

/-- C5 amended-claim witness: the two-overlapping-box hand-mode state. -/
theorem c5_hand_every_hit_acted_last_wins_witness :
    (∀ j b, c5State.boxes.get? j = some b →
      (onPointerDown false 5 5 c5State).boxes.get? j
        = some (if rectContains b 5 5
            then { b with hovered := true, pinned := true } else b)) ∧
    (onPointerDown false 5 5 c5State).dragging = lastBoxHit 5 5 c5State.boxes :=
  c5_hand_every_hit_acted_last_wins c5State 5 5 rfl rfl rfl

/-- C5 counterexample: with two exactly overlapping boxes, a hand-mode
pointer-down at a point inside both acts on the *later* box as well — it
becomes the drag target and is pinned and hovered — refuting "no node
occurring later in the collection is affected" and "first match wins". -/
theorem c5_later_box_affected :
    (onPointerDown false 5 5 c5State).dragging = some 1 ∧
    (onPointerDown false 5 5 c5State).boxes.get? 1
      = some { mkBox (0:ℚ) 0 10 10 false with hovered := true, pinned := true } ∧
    (onPointerDown false 5 5 c5State).boxes.get? 1 ≠ c5State.boxes.get? 1 := by
  have h : onPointerDown false 5 5 c5State
      = pointerDownLoop false 5 5 3 0 c5State := rfl
  refine ⟨?_, ?_, ?_⟩ <;>
    (rw [h]; norm_num [pointerDownLoop, c5State, mkBox, rectContains])

/-! ### The phantom (preview) box -/

theorem clearHover_phantomBox (s : GState) : (clearHover s).phantomBox = s.phantomBox := by
  unfold clearHover
  cases s.hoveredIdx <;> rfl

/-- C6 (amended): changing the tool away from `add` does not destroy the
preview box at the moment of the change; it is destroyed lazily by the next
pointer-move processed outside a drag.  Formally: after any pointer-move in a
state whose tool is not `add` and with no drag active, the phantom box is
absent — whatever it was before. -/
theorem c6_phantom_cleared_on_next_move (s : GState) (r1 r2 px py : ℚ)
    (hdrag : s.dragging = none) (htool : s.activeTool ≠ Tool.add) :
    (onPointerMove r1 r2 px py s).phantomBox = none := by
  unfold onPointerMove
  rw [hdrag]
  simp only [beq_eq_false_iff_ne.mpr htool, Bool.false_eq_true, if_false]
  split
  · split
    · simp [clearHover_phantomBox]
    · simp [clearHover_phantomBox]
  · simp [clearHover_phantomBox]

/-- C6 amended-claim witness: a hand-tool idle state. -/
theorem c6_phantom_cleared_on_next_move_witness :
    (onPointerMove 0 0 3 3 c5State).phantomBox = none :=
  c6_phantom_cleared_on_next_move c5State 0 0 3 3 rfl (by
    intro h
    exact Tool.noConfusion h)

/-- C6 counterexample: the invariant "tool ≠ add implies no preview node" is
violated in a reachable state.  From the startup state: click the add button
(pointer-up at `(20, 100)`), move the pointer to `(200, 200)` — the phantom
box is created — then click the hand button (pointer-up at `(20, 20)`).  The
button click changes the tool but touches nothing else, so the state after
the third event has `activeTool = hand` and the phantom box still present
(it would only disappear on the next pointer-move). -/
theorem c6_phantom_survives_tool_change :
    ∃ s : GState, Reachable s ∧ s.activeTool ≠ Tool.add ∧ s.phantomBox.isSome := by
  have e1 : onPointerUp zeroRand 20 100 (initState 800 600 zeroRand)
      = { initState 800 600 zeroRand with
          activeTool := Tool.add, pressed := [false, false, true, false, false] } := by
    norm_num [onPointerUp, initState, firstButtonHit, buttonContains, buttonRects,
      buttonClick, toolOfButton, List.find?, zeroRand,
      show List.range 5 = [0, 1, 2, 3, 4] from rfl]
  have e2 : onPointerMove 0 0 200 200
      ({ initState 800 600 zeroRand with
          activeTool := Tool.add, pressed := [false, false, true, false, false] })
      = { initState 800 600 zeroRand with
          activeTool := Tool.add, pressed := [false, false, true, false, false],
          buttonHover := [false, false, false, false, false],
          phantomBox := some ⟨175, 175, 50, 50, 105, false, false⟩ } := by
    norm_num [onPointerMove, initState, initSizes, nextLabel, buttonContains, buttonRects,
      zeroRand, show List.range 5 = [0, 1, 2, 3, 4] from rfl,
      show List.range 8 = [0, 1, 2, 3, 4, 5, 6, 7] from rfl]
  have e3 : onPointerUp zeroRand 20 20
      ({ initState 800 600 zeroRand with
          activeTool := Tool.add, pressed := [false, false, true, false, false],
          buttonHover := [false, false, false, false, false],
          phantomBox := some ⟨175, 175, 50, 50, 105, false, false⟩ })
      = { initState 800 600 zeroRand with
          activeTool := Tool.hand, pressed := [true, false, false, false, false],
          buttonHover := [false, false, false, false, false],
          phantomBox := some ⟨175, 175, 50, 50, 105, false, false⟩ } := by
    norm_num [onPointerUp, initState, firstButtonHit, buttonContains, buttonRects,
      buttonClick, toolOfButton, List.find?, zeroRand,
      show List.range 5 = [0, 1, 2, 3, 4] from rfl]
  refine ⟨onPointerUp zeroRand 20 20 (onPointerMove 0 0 200 200
      (onPointerUp zeroRand 20 100 (initState 800 600 zeroRand))), ?_, ?_, ?_⟩
  · exact Reachable.up _ zeroRand 20 20 (fun i => by norm_num [zeroRand])
      (Reachable.move _ 0 0 200 200 (by norm_num) (by norm_num)
        (Reachable.up _ zeroRand 20 100 (fun i => by norm_num [zeroRand])
          (Reachable.init 800 600 zeroRand (fun i => by norm_num [zeroRand]))))
  · rw [e1, e2, e3]
    intro h
    exact Tool.noConfusion h
  · rw [e1, e2, e3]
    rfl

end RepulsiveRects
